import Mathlib

/-!
# yakctl: session clearing and profile replay

A shallow embedding of `src/conf.go` and `src/yakuake.go`.

* The external service (`qdbus org.kde.yakuake ...`) is a `Gateway σ`: an arbitrary
  deterministic transition function on an abstract world state `σ` that answers each
  invocation with an output text or a failure.
* Every orchestrator function is a `Cmd σ α`: it reads the world, returns a value, the
  list of events it produced (gateway calls with their replies, sleeps, printed messages)
  and the new world.
* Go strings are `String`, Go slices are `List String`; the one place where the source
  mutates a slice's backing array while iterating (`clearSessions`) is modelled with the
  backing array made explicit.
-/

namespace Yakctl

/-! ## Constants of `yakuake.go` -/

def DbusPathSessions : String := "/yakuake/sessions"
def DbusPathTabs : String := "/yakuake/tabs"
def DbusPathWindow : String := "/yakuake/window"
def DbusPathMainwindow : String := "/yakuake/MainWindow_1"
def DbusMethodAddSession : String := "org.kde.yakuake.addSession"
def DbusMethodAddSessionLr : String := "org.kde.yakuake.addSessionTwoHorizontal"
def DbusMethodAddSessionTb : String := "org.kde.yakuake.addSessionTwoVertical"
def DbusMethodAddSessionQu : String := "org.kde.yakuake.addSessionQuad"
def DbusMethodSetSessionMonitorSilence : String :=
  "org.kde.yakuake.setSessionMonitorSilenceEnabled"
def DbusMethodSetSessionMonitorActivity : String :=
  "org.kde.yakuake.setSessionMonitorActivityEnabled"
def DbusMethodSetKeyboardInputEnabled : String :=
  "org.kde.yakuake.setSessionKeyboardInputEnabled"
def DbusMethodTerminalIDList : String := "org.kde.yakuake.terminalIdList"
def DbusMethodTerminalIDListForSessionID : String := "org.kde.yakuake.terminalIdsForSessionId"
def DbusMethodTerminalRemoval : String := "org.kde.yakuake.removeTerminal"
def DbusMethodSessionIDForTerminalID : String := "org.kde.yakuake.sessionIdForTerminalId"
def DbusMethodSessionIDList : String := "org.kde.yakuake.sessionIdList"
def DbusMethodIsSessionClosable : String := "org.kde.yakuake.isSessionClosable"
def DbusMethodSetSessionClosable : String := "org.kde.yakuake.setSessionClosable"
def DbusMethodRunCommandInTerminal : String := "org.kde.yakuake.runCommandInTerminal"
def DbusMethodActiveSessionId : String := "org.kde.yakuake.activeSessionId"
def DbusMethodTabTitle : String := "org.kde.yakuake.tabTitle"
def DbusMethodSetTabTitle : String := "org.kde.yakuake.setTabTitle"
def DbusMethodToggleState : String := "org.kde.yakuake.toggleWindowState"
def DbusMethodQwidgetVisible : String := "org.qtproject.Qt.QWidget.visible"

/-! ## The Go standard-library functions the source relies on -/

/-- Pieces of a character list between occurrences of `sep`; never the empty list. -/
def splitChars (sep : Char) : List Char → List (List Char)
  | [] => [[]]
  | c :: cs =>
    if c = sep then [] :: splitChars sep cs
    else match splitChars sep cs with
      | [] => [[c]]
      | w :: ws => (c :: w) :: ws

/-- Go `strings.Split(s, sep)` for a one-character separator: the substrings between the
separators, so `n + 1` pieces for `n` separators and the single piece `""` for `s = ""`. -/
def stringsSplit (s : String) (sep : Char) : List String :=
  (splitChars sep s.data).map String.mk

/-- Go `strings.Trim(s, cutset)` for a one-character cutset: all leading and trailing
occurrences of the character removed. -/
def stringsTrim (s : String) (cut : Char) : String :=
  String.mk ((s.data.dropWhile (fun c => c == cut)).reverse.dropWhile (fun c => c == cut)).reverse

/-- Go `strconv.ParseBool`: the accepted spellings, `none` for the error return. -/
def strconvParseBool (s : String) : Option Bool :=
  if s = "1" ∨ s = "t" ∨ s = "T" ∨ s = "TRUE" ∨ s = "true" ∨ s = "True" then some true
  else if s = "0" ∨ s = "f" ∨ s = "F" ∨ s = "FALSE" ∨ s = "false" ∨ s = "False" then some false
  else none

/-! ## `conf.go`: the configuration model and profile lookup -/

/-- Go `TabDescription`. -/
structure TabDescription where
  Name : String
  Commands : List String
  SplitMode : String
  Terminal1 : List String
  Terminal2 : List String
  Terminal3 : List String
  Terminal4 : List String
  Protected : Bool
  MonitorSilence : Bool
  MonitorActivity : Bool
  DisableKeyboardInput : Bool
  deriving DecidableEq, Repr

/-- Go `ProfileDescription`. -/
structure ProfileDescription where
  Name : String
  Tabs : List TabDescription
  ClearAll : Bool
  ForceClear : Bool
  deriving DecidableEq, Repr

/-- Go `YakCtlConfiguration`.  The field is a pointer to a slice (`*[]ProfileDescription`):
`none` is the nil pointer a configuration file without a `profiles` key is decoded to. -/
structure YakCtlConfiguration where
  Profiles : Option (List ProfileDescription)
  deriving DecidableEq, Repr

/-- How a Go function ends: by returning, or by a run-time panic. -/
inductive Outcome (α : Type) where
  | returned (a : α)
  | panicked (msg : String)
  deriving DecidableEq, Repr

/-- The error value `fmt.Errorf("profile #%d does not exist", number)`. -/
def profileNotFoundError (number : Int) : String :=
  "profile #" ++ toString number ++ " does not exist"

/-- The loop `for i, v := range *configuration.Profiles` of `GetProfile`, at index `i`:
the profile at which `int64(i+1) == number`, `none` when the loop runs to its end. -/
def GetProfileLoop (number : Int) : List ProfileDescription → Nat → Option ProfileDescription
  | [], _ => none
  | v :: rest, i =>
    if ((i : Int) + 1) = number then some v else GetProfileLoop number rest (i + 1)

/-- Go `GetProfile`.  `number <= 0` short-circuits the guard; otherwise the guard
dereferences `configuration.Profiles`, which panics on the nil pointer.  For a positive
`number` the conversion `int(number-1)` is exact (64-bit `int`). -/
def GetProfile (configuration : YakCtlConfiguration) (number : Int) :
    Outcome (Except String ProfileDescription) :=
  if number ≤ 0 then Outcome.returned (Except.error (profileNotFoundError number))
  else match configuration.Profiles with
    | none => Outcome.panicked "invalid memory address or nil pointer dereference"
    | some profiles =>
      if number - 1 > (profiles.length : Int) ∨ profiles.length = 0 then
        Outcome.returned (Except.error (profileNotFoundError number))
      else match GetProfileLoop number profiles 0 with
        | some v => Outcome.returned (Except.ok v)
        | none => Outcome.returned (Except.error (profileNotFoundError number))

/-! ## Events, gateway and the command monad -/

/-- What one invocation of the external program yields: `cmd.Output()` returning output
text, or an error (process could not be started / exited non-zero) with its message. -/
inductive Reply where
  | ok (out : String)
  | fail (err : String)
  deriving DecidableEq, Repr

/-- The messages printed through `color.*.Printf/Println`, one constructor per print
statement of `yakuake.go`, carrying the formatted arguments. -/
inductive Msg where
  /-- Printed by `color.Error.Println(err.Error())` in `executeCmd`. -/
  | execError (err : String)
  /-- Printed by `color.Warn.Println(err.Error())` in `executeCmdVoid`. -/
  | voidWarn (err : String)
  /-- Printed by `color.Errorf("problem fetching current active session id")`. -/
  | activeSessionProblem
  /-- Printed by `color.Error.Printf("Problem fetching terminalIDs of yakuake\n")`. -/
  | terminalIDsProblem
  /-- Printed by `color.Error.Printf("%v.\n", err)` in `ClearSession`. -/
  | clearError (err : String)
  /-- Printed by `color.Info.Printf("Found NO open terminal\n")`. -/
  | foundNoOpenTerminal
  /-- Printed by `color.Info.Printf("Found one open terminal that will be tried to close\n")`. -/
  | foundOneOpenTerminal
  /-- Printed by `color.Info.Printf("Found %d open terminals that will be tried to close\n", n)`. -/
  | foundOpenTerminals (n : Nat)
  /-- Printed by `color.Warn.Printf("Closing of tabs will be forced!\n")`. -/
  | forcedWarning
  /-- Printed by `color.Success.Println("All sessions cleared!")`. -/
  | allSessionsCleared
  /-- Format `"Terminal #%s ('%s') is protected and not closable. Do it manually!\n"`. -/
  | protectedTerminal (tID title : String)
  /-- Format `"Terminal with terminalId #%s can't be removed! %v\n"`. -/
  | cannotRemove (tID err : String)
  /-- Format `"Closing terminal #%s with session #%s and title '%s'\n"`. -/
  | closingTerminal (tID sessionID title : String)
  /-- Format `"Error fetching closable information of session '%s'\n"`. -/
  | closableError (sessionID : String)
  /-- Printed by `color.Error.Printf("Error %v\n", err)` in `getSessionIDForTerminalID`. -/
  | sessionIDError (err : String)
  /-- Format `"Problem fetching open state of yakuake window. %v.\n"`. -/
  | windowStateProblem (err : String)
  /-- Format `"Problem parsing opening state of yakuake window. Value: '%s'. %v\n"`. -/
  | windowParseProblem (value : String)
  /-- Format `"Execute command '%s' in terminal #%s\n"`. -/
  | executeCommand (command terminalID : String)
  /-- Printed by `color.Success.Printf("Created new session #%s\n", *sessionID)`. -/
  | createdSession (sessionID : String)
  /-- Printed by `color.Error.Printf("Problem fetching sessionIDs of yakuake\n")`. -/
  | sessionIDsProblem
  /-- Printed by `color.Error.Printf("%v\n", err)` in `ExecuteCommand`. -/
  | executeError (err : String)
  /-- Printed by `color.Errorf("%v\n", sessionIDs)` in `ShowStatus`, `sessionIDs` being nil. -/
  | statusError
  /-- Format `"- session #%s, tab title: %s\n"`. -/
  | sessionLine (sessionID title : String)
  /-- Format `"\t|- Terminal #%s\n"`. -/
  | terminalLine (terminalID : String)
  deriving DecidableEq, Repr

/-- Observable events of a run, in program order. -/
inductive Event where
  /-- Invocation `exec.Command("qdbus", "org.kde.yakuake", args...).Output()` and what it returned. -/
  | call (args : List String) (reply : Reply)
  /-- Pause `time.Sleep(ms * time.Millisecond)`. -/
  | sleep (ms : Nat)
  /-- A printed message. -/
  | print (m : Msg)
  deriving DecidableEq, Repr

/-- The external service: any deterministic reaction to an invocation, on any state. -/
abbrev Gateway (σ : Type) := σ → List String → Reply × σ

/-- Result of running a command: returned value, events produced, world afterwards. -/
structure Res (σ α : Type) where
  val : α
  log : List Event
  world : σ

/-- A sequential computation against the external service. -/
def Cmd (σ α : Type) : Type := σ → Res σ α

namespace Cmd

variable {σ α β : Type}

/-- Return a value without any effect. -/
def ret (a : α) : Cmd σ α := fun w => ⟨a, [], w⟩

/-- Sequencing: run `m`, then `f` on its value in the world `m` left; logs concatenate. -/
def andThen (m : Cmd σ α) (f : α → Cmd σ β) : Cmd σ β := fun w =>
  ⟨(f (m w).val (m w).world).val, (m w).log ++ (f (m w).val (m w).world).log,
    (f (m w).val (m w).world).world⟩

/-- Record one event. -/
def emit (e : Event) : Cmd σ Unit := fun w => ⟨(), [e], w⟩

/-- Go `for _, x := range xs { body x }` over an immutable list. -/
def forEach (xs : List α) (body : α → Cmd σ Unit) : Cmd σ Unit :=
  match xs with
  | [] => ret ()
  | x :: rest => andThen (body x) (fun _ => forEach rest body)

end Cmd

instance {σ : Type} : Monad (Cmd σ) where
  pure := Cmd.ret
  bind := Cmd.andThen

section Orchestrator

variable {σ : Type} (g : Gateway σ)

/-- Go `executeCmd`: one invocation; on failure print the error and return `("", err)`,
otherwise the output with newlines trimmed and a nil error. -/
def executeCmd (args : List String) : Cmd σ (String × Option String) := fun w =>
  match g w args with
  | (Reply.fail err, w1) =>
    ⟨("", some err), [Event.call args (Reply.fail err), Event.print (Msg.execError err)], w1⟩
  | (Reply.ok out, w1) =>
    ⟨(stringsTrim out '\n', none), [Event.call args (Reply.ok out)], w1⟩

/-- Go `executeCmdVoid`: output unused, a failure is printed as a warning. -/
def executeCmdVoid (args : List String) : Cmd σ Unit := do
  let r ← executeCmd g args
  match r.2 with
  | some err => Cmd.emit (Event.print (Msg.voidWarn err))
  | none => pure ()

/-- Go `getSessionIDForTerminalID`. -/
def getSessionIDForTerminalID (terminalID : String) : Cmd σ String := do
  let r ← executeCmd g [DbusPathSessions, DbusMethodSessionIDForTerminalID, terminalID]
  match r.2 with
  | some err =>
    Cmd.emit (Event.print (Msg.sessionIDError err))
    pure ""
  | none => pure r.1

/-- Go `getTitleOfSession`: the error is ignored, a failed query yields `""`. -/
def getTitleOfSession (sessionID : String) : Cmd σ String := do
  let r ← executeCmd g [DbusPathTabs, DbusMethodTabTitle, sessionID]
  pure r.1

/-- The loop of `isTerminalClosable` over the session ids of the terminal; the title is
`none` for Go's nil pointer. -/
def isTerminalClosableLoop : List String → Cmd σ (Bool × Option String)
  | [] => pure (true, none)
  | sessionID :: rest => do
    let title ← getTitleOfSession g sessionID
    let r ← executeCmd g [DbusPathSessions, DbusMethodIsSessionClosable, sessionID]
    match r.2 with
    | some _ =>
      Cmd.emit (Event.print (Msg.closableError sessionID))
      pure (false, some title)
    | none =>
      if (strconvParseBool r.1).getD false then isTerminalClosableLoop rest
      else pure (false, some title)

/-- Go `isTerminalClosable`. -/
def isTerminalClosable (terminalID : String) : Cmd σ (Bool × Option String) := do
  let sessionsIDOutput ← getSessionIDForTerminalID g terminalID
  isTerminalClosableLoop g (stringsSplit sessionsIDOutput ',')

/-- Go `getCurrentSessionId`. -/
def getCurrentSessionId : Cmd σ String := do
  let r ← executeCmd g [DbusPathSessions, DbusMethodActiveSessionId]
  match r.2 with
  | some _ => Cmd.emit (Event.print Msg.activeSessionProblem)
  | none => pure ()
  if r.1 = "-1" then pure "" else pure r.1

/-- Go `getAllTerminalIDs`: `Except.error err` is the `(nil, err)` return. -/
def getAllTerminalIDs : Cmd σ (Except String (List String)) := do
  let r ← executeCmd g [DbusPathSessions, DbusMethodTerminalIDList]
  match r.2 with
  | some err =>
    Cmd.emit (Event.print Msg.terminalIDsProblem)
    pure (Except.error err)
  | none => pure (Except.ok (stringsSplit r.1 ','))

/-- The forced unlocking inside `processTerminalRemoval` (lines 266-272), with the
condition already true: for each id of the comma-separated `sessionID`, set the session
closable and pause. -/
def unlockSessions (sessionID : String) : Cmd σ Unit :=
  Cmd.forEach (stringsSplit sessionID ',') (fun id => do
    executeCmdVoid g [DbusPathSessions, DbusMethodSetSessionClosable, id, "true"]
    Cmd.emit (Event.sleep 10))

/-- The closing part of an iteration of `processTerminalRemoval` (lines 276-284); the value
is `*didSomething` afterwards. -/
def closeTerminal (tID sessionID : String) (didSomething : Bool) : Cmd σ Bool := do
  let tabTitle ← getTitleOfSession g sessionID
  let r ← executeCmd g [DbusPathSessions, DbusMethodTerminalRemoval, tID]
  match r.2 with
  | some terminalRemovalErr =>
    Cmd.emit (Event.print (Msg.cannotRemove tID terminalRemovalErr))
    pure didSomething
  | none =>
    Cmd.emit (Event.print (Msg.closingTerminal tID sessionID tabTitle))
    pure true

/-- One iteration of the `for _, tID := range *terminalIDs` loop of
`processTerminalRemoval`; the value is `*didSomething` after the iteration.  The title
pointer is dereferenced only when `closable` is false, where it is not nil. -/
def processTerminalRemovalStep (forceDeletion : Bool) (tID : String) (didSomething : Bool) :
    Cmd σ Bool := do
  let c ← isTerminalClosable g tID
  if !c.1 && !forceDeletion then
    Cmd.emit (Event.print (Msg.protectedTerminal tID (c.2.getD "")))
  let sessionID ← getSessionIDForTerminalID g tID
  if forceDeletion then
    unlockSessions g sessionID
  if !c.1 && !forceDeletion then
    pure didSomething
  else
    closeTerminal g tID sessionID didSomething

/-- Go `processTerminalRemoval`; the value is `*didSomething` on return. -/
def processTerminalRemoval (forceDeletion : Bool) :
    List String → Bool → Cmd σ Bool
  | [], didSomething => pure didSomething
  | tID :: rest, didSomething => do
    let d ← processTerminalRemovalStep g forceDeletion tID didSomething
    processTerminalRemoval forceDeletion rest d

/-- Go `append(a[:i], a[i+1:]...)` for a slice `a` that spans its whole backing array
`arr`: the result fits the capacity, so the elements after position `i` are moved one place
down inside `arr` and the last cell keeps its old content.  The value is the backing array
afterwards; the slice returned by `append` is its first `len - 1` cells. -/
def appendInPlace (arr : List String) (i : Nat) : List String :=
  arr.take i ++ arr.drop (i + 1) ++ arr.drop (arr.length - 1)

/-- The variables of the stripping loop of `clearSessions`.  `terminalIDs` and
`cleanedUpTerminalIDList` are slices over the same backing array `arr`; `terminalIDs`
keeps its length, `cleanedUpTerminalIDList` is the first `cleanedLen` cells. -/
structure StripState where
  arr : List String
  cleanedLen : Nat
  isCurrentTerminalPostponed : Bool
  postponedTerminalIDs : List String
  deriving DecidableEq, Repr

/-- The loop `for i, tID := range terminalIDs` of `clearSessions`, with `fuel` iterations
left and `i` the current index.  `tID` is read from the backing array when its iteration
starts, so it sees what earlier iterations moved. -/
def stripLoop (currentlyActiveSessionID : String) :
    Nat → Nat → StripState → Cmd σ StripState
  | 0, _, st => pure st
  | fuel + 1, i, st => do
    let tID := st.arr.getD i ""
    let sessionIDOfTerminal ← getSessionIDForTerminalID g tID
    if sessionIDOfTerminal = currentlyActiveSessionID then
      stripLoop currentlyActiveSessionID fuel (i + 1)
        { arr := appendInPlace st.arr i
          cleanedLen := st.arr.length - 1
          isCurrentTerminalPostponed := true
          postponedTerminalIDs := st.postponedTerminalIDs ++ [tID] }
    else
      stripLoop currentlyActiveSessionID fuel (i + 1) st

/-- The two lists `clearSessions` hands to `processTerminalRemoval`, and whether the
second pass runs: the stripping loop over all of `terminalIDs`. -/
def stripActive (currentlyActiveSessionID : String) (terminalIDs : List String) :
    Cmd σ StripState :=
  stripLoop g currentlyActiveSessionID terminalIDs.length 0
    { arr := terminalIDs
      cleanedLen := terminalIDs.length
      isCurrentTerminalPostponed := false
      postponedTerminalIDs := [] }

/-- The slice `cleanedUpTerminalIDList` as `processTerminalRemoval` reads it. -/
def StripState.cleanedUpTerminalIDList (st : StripState) : List String :=
  st.arr.take st.cleanedLen

/-- The two passes at the end of `clearSessions` (lines 236-241), `didSomething` starting
as false: the cleaned-up list first, then the postponed list when something was postponed.
The value is `didSomething` afterwards. -/
def removalPasses (forceDeletion : Bool) (st : StripState) : Cmd σ Bool := do
  let d ← processTerminalRemoval g forceDeletion st.cleanedUpTerminalIDList false
  if st.isCurrentTerminalPostponed then
    processTerminalRemoval g forceDeletion st.postponedTerminalIDs d
  else
    pure d

/-- The first statement of `clearSessions`: the protected session id is fetched when
`lastSessionId` is nil (`none`) and is `*lastSessionId` otherwise. -/
def activeSessionFor (lastSessionId : Option String) : Cmd σ String :=
  match lastSessionId with
  | none => getCurrentSessionId g
  | some s => pure s

/-- Go `clearSessions`; `lastSessionId = none` is the nil pointer. -/
def clearSessions (forceDeletion : Bool) (terminalIDs : List String)
    (lastSessionId : Option String) : Cmd σ Unit := do
  let currentlyActiveSessionID ← activeSessionFor g lastSessionId
  if terminalIDs.length = 0 then
    Cmd.emit (Event.print Msg.foundNoOpenTerminal)
  else if terminalIDs.length = 1 then
    Cmd.emit (Event.print Msg.foundOneOpenTerminal)
  else
    Cmd.emit (Event.print (Msg.foundOpenTerminals terminalIDs.length))
  if forceDeletion then
    Cmd.emit (Event.print Msg.forcedWarning)
  let st ← stripActive g currentlyActiveSessionID terminalIDs
  let didSomething ← removalPasses g forceDeletion st
  if didSomething then
    Cmd.emit (Event.print Msg.allSessionsCleared)

/-- Go `ClearSession`. -/
def ClearSession (forceDeletion : Bool) : Cmd σ Unit := do
  let r ← getAllTerminalIDs g
  match r with
  | Except.error err => Cmd.emit (Event.print (Msg.clearError err))
  | Except.ok terminalIDs => clearSessions g forceDeletion terminalIDs none

/-- Go `getTerminalIDsForSessionID`: the error is ignored. -/
def getTerminalIDsForSessionID (sessionID : String) : Cmd σ (List String) := do
  let r ← executeCmd g [DbusPathSessions, DbusMethodTerminalIDListForSessionID, sessionID]
  pure (stringsSplit r.1 ',')

/-- Go `isWindowShown`. -/
def isWindowShown : Cmd σ Bool := do
  let r ← executeCmd g [DbusPathMainwindow, DbusMethodQwidgetVisible]
  match r.2 with
  | some err =>
    Cmd.emit (Event.print (Msg.windowStateProblem err))
    pure true
  | none =>
    match strconvParseBool r.1 with
    | none =>
      Cmd.emit (Event.print (Msg.windowParseProblem r.1))
      pure false
    | some b => pure b

/-- Go `executeCommandInTerminal`. -/
def executeCommandInTerminal (command terminalID : String) : Cmd σ Unit := do
  Cmd.emit (Event.print (Msg.executeCommand command terminalID))
  executeCmdVoid g [DbusPathSessions, DbusMethodRunCommandInTerminal, terminalID, command]

/-- Go `startSession`; `toLower` stands for the library function `strings.ToLower`.  The
returned pointer is never nil, the value is the string it points to. -/
def startSession (toLower : String → String) (tab : TabDescription) : Cmd σ String := do
  let mode := toLower tab.SplitMode
  if mode = "left-right" ∨ mode = "horizontal" ∨ mode = "lr" then
    let r ← executeCmd g [DbusPathSessions, DbusMethodAddSessionLr]
    pure r.1
  else if mode = "top-bottom" ∨ mode = "vertical" ∨ mode = "tb" then
    let r ← executeCmd g [DbusPathSessions, DbusMethodAddSessionTb]
    pure r.1
  else if mode = "quad" ∨ mode = "qu" then
    let r ← executeCmd g [DbusPathSessions, DbusMethodAddSessionQu]
    pure r.1
  else
    let r ← executeCmd g [DbusPathSessions, DbusMethodAddSession]
    pure r.1

/-- The part of the tab loop body of `LoadSession` that runs the commands of the tab
(lines 98-124) on the fetched `terminalIDs`.  Each index expression `terminalIDs[k]` is
typed by the guard around it. -/
def runTabCommands (tab : TabDescription) (terminalIDs : List String) : Cmd σ Unit := do
  Cmd.forEach tab.Commands (fun command =>
    Cmd.forEach terminalIDs (fun terminalID => executeCommandInTerminal g command terminalID))
  (if h : terminalIDs.length > 0 then
    Cmd.forEach tab.Terminal1 (fun t1Cmd =>
      executeCommandInTerminal g t1Cmd (terminalIDs.get ⟨0, h⟩))
  else pure ())
  (if h : terminalIDs.length > 1 then
    Cmd.forEach tab.Terminal2 (fun t2Cmd =>
      executeCommandInTerminal g t2Cmd (terminalIDs.get ⟨1, h⟩))
  else pure ())
  (if h : terminalIDs.length > 2 then
    Cmd.forEach tab.Terminal3 (fun t3Cmd =>
      executeCommandInTerminal g t3Cmd (terminalIDs.get ⟨2, h⟩))
  else pure ())
  (if h : terminalIDs.length > 3 then
    Cmd.forEach tab.Terminal4 (fun t4Cmd =>
      executeCommandInTerminal g t4Cmd (terminalIDs.get ⟨3, h⟩))
  else pure ())

/-- The flag handling of the tab loop body of `LoadSession` (lines 125-138). -/
def applyTabFlags (tab : TabDescription) (sessionID : String) : Cmd σ Unit := do
  (if tab.Protected then
    executeCmdVoid g [DbusPathSessions, DbusMethodSetSessionClosable, sessionID, "false"]
  else pure ())
  (if tab.MonitorSilence then
    executeCmdVoid g [DbusPathSessions, DbusMethodSetSessionMonitorSilence, sessionID, "true"]
  else pure ())
  (if tab.MonitorActivity then
    executeCmdVoid g [DbusPathSessions, DbusMethodSetSessionMonitorActivity, sessionID, "true"]
  else pure ())
  (if tab.DisableKeyboardInput then
    executeCmdVoid g [DbusPathSessions, DbusMethodSetKeyboardInputEnabled, sessionID, "false"]
  else pure ())
  Cmd.emit (Event.print (Msg.createdSession sessionID))

/-- The tab loop body of `LoadSession` once the session exists (lines 92-138): title,
terminal ids of the session, commands, flags. -/
def setUpTab (tab : TabDescription) (sessionID : String) : Cmd σ Unit := do
  executeCmdVoid g [DbusPathTabs, DbusMethodSetTabTitle, sessionID, tab.Name]
  let terminalIDs ← getTerminalIDsForSessionID g sessionID
  runTabCommands g tab terminalIDs
  applyTabFlags g tab sessionID

/-- One iteration of `for _, tab := range profile.Tabs` in `LoadSession`; `some err` when
the iteration returns `err` from `LoadSession`. -/
def loadTab (toLower : String → String) (tab : TabDescription) : Cmd σ (Option String) := do
  let sessionID ← startSession g toLower tab
  if sessionID.length = 0 then
    pure (some "problem creating session for new tab")
  else do
    setUpTab g tab sessionID
    pure none

/-- The loop `for _, tab := range profile.Tabs` of `LoadSession`. -/
def loadTabs (toLower : String → String) : List TabDescription → Cmd σ (Option String)
  | [] => pure none
  | tab :: rest => do
    let e ← loadTab g toLower tab
    match e with
    | some err => pure (some err)
    | none => loadTabs toLower rest

/-- Go `LoadSession` after the profile lookup succeeded (lines 78-152); the value is the
returned error, `none` for nil. -/
def loadProfile (toLower : String → String) (profile : ProfileDescription) :
    Cmd σ (Option String) := do
  let currentlyOpenedSessionID ← getCurrentSessionId g
  let r ← getAllTerminalIDs g
  match r with
  | Except.error termErrs => pure (some termErrs)
  | Except.ok openedTerminalsBeforeLoad =>
    let e ← loadTabs g toLower profile.Tabs
    match e with
    | some err => pure (some err)
    | none =>
      let shown ← isWindowShown g
      if !shown then
        executeCmdVoid g [DbusPathWindow, DbusMethodToggleState]
      if profile.ClearAll then
        clearSessions g profile.ForceClear openedTerminalsBeforeLoad
          (some currentlyOpenedSessionID)
      pure none

/-- Go `LoadSession`. -/
def LoadSession (toLower : String → String) (configuration : YakCtlConfiguration)
    (profileID : Int) : Cmd σ (Outcome (Option String)) :=
  match GetProfile configuration profileID with
  | Outcome.panicked msg => pure (Outcome.panicked msg)
  | Outcome.returned (Except.error err) => pure (Outcome.returned (some err))
  | Outcome.returned (Except.ok profile) => do
    let e ← loadProfile g toLower profile
    pure (Outcome.returned e)

/-- Go `getAllSessionIDs`: `Except.error err` is the `(nil, err)` return. -/
def getAllSessionIDs : Cmd σ (Except String (List String)) := do
  let r ← executeCmd g [DbusPathSessions, DbusMethodSessionIDList]
  match r.2 with
  | some err =>
    Cmd.emit (Event.print Msg.sessionIDsProblem)
    pure (Except.error err)
  | none => pure (Except.ok (stringsSplit r.1 ','))

/-- Go `ExecuteCommand`.  `affectedTerminals` is the slice the pointer argument points to;
the value is that slice on return (the enumeration result is stored through the pointer,
nil when the enumeration failed). -/
def ExecuteCommand (command : String) (affectedTerminals : List String) :
    Cmd σ (List String) :=
  if affectedTerminals.length = 0 then do
    let r ← getAllTerminalIDs g
    match r with
    | Except.error err =>
      Cmd.emit (Event.print (Msg.executeError err))
      pure []
    | Except.ok terminalIDs =>
      Cmd.forEach terminalIDs (fun tID => executeCommandInTerminal g command tID)
      pure terminalIDs
  else do
    Cmd.forEach affectedTerminals (fun tID => executeCommandInTerminal g command tID)
    pure affectedTerminals

/-- One iteration of `for _, sessionID := range sessionIDs` in `ShowStatus`: the title
query, the session line, the terminal id query and one line per terminal id.  Neither
`getTitleOfSession` nor `getTerminalIDsForSessionID` returns an error to look at. -/
def showSession (sessionID : String) : Cmd σ Unit := do
  let tabTitle ← getTitleOfSession g sessionID
  Cmd.emit (Event.print (Msg.sessionLine sessionID tabTitle))
  let terminalIds ← getTerminalIDsForSessionID g sessionID
  Cmd.forEach terminalIds (fun terminalID =>
    Cmd.emit (Event.print (Msg.terminalLine terminalID)))

/-- Go `ShowStatus`. -/
def ShowStatus : Cmd σ Unit := do
  let r ← getAllSessionIDs g
  match r with
  | Except.error _ => Cmd.emit (Event.print Msg.statusError)
  | Except.ok sessionIDs => Cmd.forEach sessionIDs (showSession g)

end Orchestrator

/-! ## Observations on event logs -/

/-- The argument lists of the gateway calls of a log, in order. -/
def calls (log : List Event) : List (List String) :=
  log.filterMap (fun e => match e with
    | Event.call args _ => some args
    | _ => none)

/-- The method of a gateway call: the second argument of the invocation. -/
def methodOf (args : List String) : Option String :=
  match args with
  | _ :: m :: _ => some m
  | _ => none

/-- The calls of a log that invoke `removeTerminal`, whatever their other arguments. -/
def removeCalls (log : List Event) : List (List String) :=
  (calls log).filter (fun args => methodOf args = some DbusMethodTerminalRemoval)

/-- The terminal ids `removeTerminal` is invoked on: the third argument of each such call. -/
def removalTargets (log : List Event) : List String :=
  (removeCalls log).map (fun args => args.getD 2 "")

/-- An event that is neither one of the two summary messages of `clearSessions` ("All
sessions cleared!", "Found NO open terminal") nor a call of a method outside `L`. -/
def Event.ordinary (L : List String) : Event → Prop
  | Event.call args _ => ∃ m, methodOf args = some m ∧ m ∈ L
  | Event.sleep _ => True
  | Event.print m => m ≠ Msg.allSessionsCleared ∧ m ≠ Msg.foundNoOpenTerminal

/-- A log made of ordinary events only. -/
def Ordinary (L : List String) (log : List Event) : Prop :=
  ∀ e ∈ log, e.ordinary L

/-- The methods a clearing pass may invoke besides `removeTerminal`. -/
def queryMethods : List String :=
  [DbusMethodSessionIDForTerminalID, DbusMethodTabTitle, DbusMethodIsSessionClosable,
    DbusMethodSetSessionClosable, DbusMethodActiveSessionId]

/-- Every method a clearing pass may invoke. -/
def clearingMethods : List String := DbusMethodTerminalRemoval :: queryMethods

/-- The log holds a successful `removeTerminal` call: one the service answered without
error. -/
def closedSomething (log : List Event) : Prop :=
  ∃ t out, Event.call [DbusPathSessions, DbusMethodTerminalRemoval, t] (Reply.ok out) ∈ log

/-- The message `clearSessions` prints about the number of candidates (lines 209-215). -/
def foundMessage (n : Nat) : Msg :=
  if n = 0 then Msg.foundNoOpenTerminal
  else if n = 1 then Msg.foundOneOpenTerminal
  else Msg.foundOpenTerminals n

/-- The printed messages of a log, in order. -/
def messages (log : List Event) : List Msg :=
  log.filterMap (fun e => match e with
    | Event.print m => some m
    | _ => none)

/-- The calls of a log whose method is one of `L`, in order. -/
def callsOf (L : List String) (log : List Event) : List (List String) :=
  (calls log).filter (fun args => match methodOf args with
    | some m => decide (m ∈ L)
    | none => false)

/-- The four session-creation methods. -/
def creationMethods : List String :=
  [DbusMethodAddSession, DbusMethodAddSessionLr, DbusMethodAddSessionTb, DbusMethodAddSessionQu]

/-- The methods the flag handling of a tab invokes. -/
def flagMethods : List String :=
  [DbusMethodSetSessionClosable, DbusMethodSetSessionMonitorSilence,
    DbusMethodSetSessionMonitorActivity, DbusMethodSetKeyboardInputEnabled]

/-- The methods a tab replay invokes after the session was created. -/
def tabMethods : List String :=
  [DbusMethodSetTabTitle, DbusMethodTerminalIDListForSessionID, DbusMethodRunCommandInTerminal,
    DbusMethodSetSessionClosable, DbusMethodSetSessionMonitorSilence,
    DbusMethodSetSessionMonitorActivity, DbusMethodSetKeyboardInputEnabled]

/-- The split mode mapping in the words of the specification, on the lower-cased split
mode: `left-right|horizontal|lr` gives the two-horizontal session, `top-bottom|vertical|tb`
the two-vertical one, `quad|qu` the four-way one, anything else a single session. -/
def splitModeMethod (mode : String) : String :=
  if mode ∈ ["left-right", "horizontal", "lr"] then DbusMethodAddSessionLr
  else if mode ∈ ["top-bottom", "vertical", "tb"] then DbusMethodAddSessionTb
  else if mode ∈ ["quad", "qu"] then DbusMethodAddSessionQu
  else DbusMethodAddSession

/-- A call of one of the four session-creation methods. -/
def IsCreation (args : List String) : Prop :=
  ∃ m ∈ creationMethods, methodOf args = some m

/-- The methods `LoadSession` invokes before it starts clearing. -/
def replayMethods : List String :=
  [DbusMethodActiveSessionId, DbusMethodTerminalIDList, DbusMethodQwidgetVisible,
    DbusMethodToggleState] ++ (creationMethods ++ tabMethods)

/-- The methods `LoadSession` invokes after the tabs, before it starts clearing. -/
def windowMethods : List String := [DbusMethodQwidgetVisible, DbusMethodToggleState]

/-- The command list of terminal slot `k` of a tab, slots counted from 0. -/
def TabDescription.slot (tab : TabDescription) : Nat → List String
  | 0 => tab.Terminal1
  | 1 => tab.Terminal2
  | 2 => tab.Terminal3
  | 3 => tab.Terminal4
  | _ => []

/-- The run-command calls of a command list against a terminal, none when there is no
terminal. -/
def slotCalls (cmds : List String) (terminal : Option String) : List (List String) :=
  match terminal with
  | some t => cmds.map (fun c => [DbusPathSessions, DbusMethodRunCommandInTerminal, t, c])
  | none => []

/-- The terminal ids `LoadSession` fetches for the session it opened for `tab` in world
`w` (line 96), after the title call. -/
def fetchedTerminalIDs {σ : Type} (g : Gateway σ) (toLower : String → String)
    (tab : TabDescription) (w : σ) : List String :=
  (getTerminalIDsForSessionID g (startSession g toLower tab w).val
    (executeCmdVoid g [DbusPathTabs, DbusMethodSetTabTitle, (startSession g toLower tab w).val,
      tab.Name] (startSession g toLower tab w).world).world).val

/-- The check, on one event, that a session-creation call was answered with a non-empty
id. -/
def creationAnswered : Event → Bool
  | Event.call args (Reply.ok out) =>
    !(decide (∃ m ∈ creationMethods, methodOf args = some m)) ||
      !(decide (stringsTrim out '\n' = ""))
  | Event.call args (Reply.fail _) =>
    !(decide (∃ m ∈ creationMethods, methodOf args = some m))
  | _ => true

/-- The printed session and terminal lines of a log, in order. -/
def listingLines (log : List Event) : List Msg :=
  (messages log).filter (fun m => match m with
    | Msg.sessionLine _ _ => true
    | Msg.terminalLine _ => true
    | _ => false)

/-- The session ids of the printed session lines of a log, in order. -/
def sessionLineIDs (log : List Event) : List String :=
  (messages log).filterMap (fun m => match m with
    | Msg.sessionLine sessionID _ => some sessionID
    | _ => none)

/-- The text the orchestrator reads from a reply: the output without its surrounding
newlines, and the empty string for a failed invocation. -/
def Reply.text : Reply → String
  | Reply.ok out => stringsTrim out '\n'
  | Reply.fail _ => ""

/-- The reply to a closability query says the session is closable: the invocation
succeeded and its output is one of the spellings of true.  A failed invocation and an
output that is no boolean do not. -/
def Reply.reportsClosable : Reply → Prop
  | Reply.ok out => strconvParseBool (stringsTrim out '\n') = some true
  | Reply.fail _ => False

instance (r : Reply) : Decidable r.reportsClosable := by
  cases r <;> unfold Reply.reportsClosable <;> infer_instance

/-- A closability query in a log that was not answered "closable". -/
def refusedIn (log : List Event) : Prop :=
  ∃ sid r, Event.call [DbusPathSessions, DbusMethodIsSessionClosable, sid] r ∈ log ∧
    ¬ r.reportsClosable

/-- The listing the replies of the service call for, session after session: the session
line with the text of the title reply, then one terminal line per comma-separated field of
the text of the terminal id reply; the state of the service is threaded through the two
queries of every session. -/
def listingOf {σ : Type} (g : Gateway σ) : List String → σ → List Msg
  | [], _ => []
  | sessionID :: rest, w =>
    Msg.sessionLine sessionID (g w [DbusPathTabs, DbusMethodTabTitle, sessionID]).1.text ::
      ((stringsSplit
          (g (g w [DbusPathTabs, DbusMethodTabTitle, sessionID]).2
            [DbusPathSessions, DbusMethodTerminalIDListForSessionID, sessionID]).1.text
          ',').map Msg.terminalLine ++
        listingOf g rest
          (g (g w [DbusPathTabs, DbusMethodTabTitle, sessionID]).2
            [DbusPathSessions, DbusMethodTerminalIDListForSessionID, sessionID]).2)

/-! ## Concrete services and profiles, to run the code on -/

/-- A stateless service with three terminals: `1` and `2` belong to session `a`, every
other terminal to session `b`; every session is closable, every other call succeeds with
empty output. -/
def splitSessionGateway : Gateway Unit := fun _ args =>
  match args with
  | [_, m, t] =>
    if m = DbusMethodSessionIDForTerminalID then
      (Reply.ok (if t = "1" ∨ t = "2" then "a\n" else "b\n"), ())
    else if m = DbusMethodIsSessionClosable then (Reply.ok "true\n", ())
    else (Reply.ok "", ())
  | _ => (Reply.ok "", ())

/-- A stateless service that reports no open terminal: the terminal id list is empty, like
every other reply except that sessions are reported closable. -/
def noTerminalGateway : Gateway Unit := fun _ args =>
  match args with
  | [_, m, _] =>
    if m = DbusMethodIsSessionClosable then (Reply.ok "true\n", ()) else (Reply.ok "", ())
  | _ => (Reply.ok "", ())

/-- A stateless service whose sessions answer the closability query with text that is not
a boolean; every terminal belongs to session `s`. -/
def undecidedGateway : Gateway Unit := fun _ args =>
  match args with
  | [_, m, _] =>
    if m = DbusMethodSessionIDForTerminalID then (Reply.ok "s\n", ())
    else if m = DbusMethodIsSessionClosable then (Reply.ok "maybe\n", ())
    else (Reply.ok "", ())
  | _ => (Reply.ok "", ())

/-- A stateless service with open terminals `1,2,3` (`1` and `2` in the active session
`a`), a shown window, and new sessions `7` that own the terminals `8,9`. -/
def replayGateway : Gateway Unit := fun _ args =>
  match args with
  | [_, m] =>
    if m = DbusMethodTerminalIDList then (Reply.ok "1,2,3\n", ())
    else if m = DbusMethodActiveSessionId then (Reply.ok "a\n", ())
    else if m = DbusMethodQwidgetVisible then (Reply.ok "true\n", ())
    else (Reply.ok "7\n", ())
  | [_, m, t] =>
    if m = DbusMethodSessionIDForTerminalID then
      (Reply.ok (if t = "1" ∨ t = "2" then "a\n" else "b\n"), ())
    else if m = DbusMethodIsSessionClosable then (Reply.ok "true\n", ())
    else if m = DbusMethodTerminalIDListForSessionID then (Reply.ok "8,9\n", ())
    else (Reply.ok "", ())
  | _ => (Reply.ok "", ())

/-- Lower-casing of the ASCII letters `A`-`Z`; on ASCII text this is what Go
`strings.ToLower` computes. -/
def asciiToLower (s : String) : String :=
  String.mk (s.data.map Char.toLower)

/-- A profile with a quad tab, a vertical tab and a plain tab, split modes in mixed case,
that clears the old terminals. -/
def demoProfile : ProfileDescription :=
  { Name := "demo"
    Tabs := [
      { Name := "build", Commands := ["cd src"], SplitMode := "QUAD", Terminal1 := ["make"],
        Terminal2 := ["top"], Terminal3 := ["tail -f log"], Terminal4 := [],
        Protected := true, MonitorSilence := false, MonitorActivity := false,
        DisableKeyboardInput := false },
      { Name := "logs", Commands := [], SplitMode := "Vertical", Terminal1 := [],
        Terminal2 := ["dmesg -w"], Terminal3 := [], Terminal4 := [], Protected := false,
        MonitorSilence := false, MonitorActivity := true, DisableKeyboardInput := false },
      { Name := "shell", Commands := [], SplitMode := "", Terminal1 := [], Terminal2 := [],
        Terminal3 := [], Terminal4 := [], Protected := false, MonitorSilence := false,
        MonitorActivity := false, DisableKeyboardInput := false }]
    ClearAll := true
    ForceClear := false }

/-- A configuration with the one profile `demoProfile`. -/
def demoConfiguration : YakCtlConfiguration := { Profiles := some [demoProfile] }

/-- A stateless service with the sessions `1` and `2`, where both queries about session
`1` fail and session `2` has the title `logs` and the terminal `20`. -/
def brokenSessionGateway : Gateway Unit := fun _ args =>
  match args with
  | [_, m] =>
    if m = DbusMethodSessionIDList then (Reply.ok "1,2\n", ()) else (Reply.ok "", ())
  | [_, m, s] =>
    if s = "1" then (Reply.fail "exit status 1", ())
    else if m = DbusMethodTabTitle then (Reply.ok "logs\n", ())
    else if m = DbusMethodTerminalIDListForSessionID then (Reply.ok "20\n", ())
    else (Reply.ok "", ())
  | _ => (Reply.ok "", ())

/-- A stateless service where terminal `2` belongs to session `a` and every other
terminal to session `b`; every session is closable. -/
def singleActiveGateway : Gateway Unit := fun _ args =>
  match args with
  | [_, m, t] =>
    if m = DbusMethodSessionIDForTerminalID then
      (Reply.ok (if t = "2" then "a" else "b"), ())
    else if m = DbusMethodIsSessionClosable then (Reply.ok "true", ())
    else (Reply.ok "", ())
  | _ => (Reply.ok "", ())

/-- A stateless service whose closability query fails; every terminal belongs to session
`s`. -/
def failingClosableGateway : Gateway Unit := fun _ args =>
  match args with
  | [_, m, _] =>
    if m = DbusMethodSessionIDForTerminalID then (Reply.ok "s\n", ())
    else if m = DbusMethodIsSessionClosable then (Reply.fail "exit status 1", ())
    else (Reply.ok "", ())
  | _ => (Reply.ok "", ())

/-- A stateless service whose every terminal belongs to session `s`, which is reported not
closable. -/
def lockedGateway : Gateway Unit := fun _ args =>
  match args with
  | [_, m, _] =>
    if m = DbusMethodSessionIDForTerminalID then (Reply.ok "s\n", ())
    else if m = DbusMethodIsSessionClosable then (Reply.ok "false\n", ())
    else (Reply.ok "", ())
  | _ => (Reply.ok "", ())

/-- A service with a state, the number of owning-session queries it has received: the
first `k` of them are answered with session `s`, every later one fails; session `s` is
reported not closable, every other call succeeds with empty output. -/
def flakyOwnerGateway (k : Nat) : Gateway Nat := fun n args =>
  match args with
  | [_, m, _] =>
    if m = DbusMethodSessionIDForTerminalID then
      (if n < k then Reply.ok "s\n" else Reply.fail "exit status 1", n + 1)
    else if m = DbusMethodIsSessionClosable then (Reply.ok "false\n", n)
    else (Reply.ok "", n)
  | _ => (Reply.ok "", n)

/-- The service `replayGateway`, except that the terminal id query of a session is
answered with `r`. -/
def terminalReplyGateway (r : Reply) : Gateway Unit := fun w args =>
  match args with
  | [_, m, _] =>
    if m = DbusMethodTerminalIDListForSessionID then (r, ()) else replayGateway w args
  | _ => replayGateway w args

/-- A profile with one plain tab that has shared commands and commands for the terminal
slots 1 and 2, and asks for no clearing. -/
def slotProfile : ProfileDescription :=
  { Name := "slots"
    Tabs := [
      { Name := "build", Commands := ["cd src"], SplitMode := "", Terminal1 := ["make"],
        Terminal2 := ["top"], Terminal3 := [], Terminal4 := [], Protected := false,
        MonitorSilence := false, MonitorActivity := false, DisableKeyboardInput := false }]
    ClearAll := false
    ForceClear := false }

/-- A configuration with the one profile `slotProfile`. -/
def slotConfiguration : YakCtlConfiguration := { Profiles := some [slotProfile] }

/-! ## Lemmas -/

section Lemmas

variable {σ α β : Type} (g : Gateway σ)

@[simp] theorem Cmd.pure_apply (a : α) (w : σ) : (pure a : Cmd σ α) w = ⟨a, [], w⟩ := rfl

@[simp] theorem Cmd.bind_apply (m : Cmd σ α) (f : α → Cmd σ β) (w : σ) :
    (m >>= f) w = ⟨(f (m w).val (m w).world).val, (m w).log ++ (f (m w).val (m w).world).log,
      (f (m w).val (m w).world).world⟩ := rfl

@[simp] theorem Cmd.emit_apply (e : Event) (w : σ) : (Cmd.emit e : Cmd σ Unit) w = ⟨(), [e], w⟩ :=
  rfl

@[simp] theorem Cmd.ret_apply (a : α) (w : σ) : (Cmd.ret a : Cmd σ α) w = ⟨a, [], w⟩ := rfl

@[simp] theorem calls_nil : calls [] = [] := rfl

@[simp] theorem calls_append (l₁ l₂ : List Event) : calls (l₁ ++ l₂) = calls l₁ ++ calls l₂ := by
  simp [calls, List.filterMap_append]

@[simp] theorem calls_cons_call (args : List String) (r : Reply) (l : List Event) :
    calls (Event.call args r :: l) = args :: calls l := by
  simp [calls, List.filterMap_cons]

@[simp] theorem calls_cons_print (m : Msg) (l : List Event) :
    calls (Event.print m :: l) = calls l := by
  simp [calls, List.filterMap_cons]

@[simp] theorem calls_cons_sleep (n : Nat) (l : List Event) :
    calls (Event.sleep n :: l) = calls l := by
  simp [calls, List.filterMap_cons]

@[simp] theorem removeCalls_nil : removeCalls [] = [] := rfl

@[simp] theorem removeCalls_append (l₁ l₂ : List Event) :
    removeCalls (l₁ ++ l₂) = removeCalls l₁ ++ removeCalls l₂ := by
  simp [removeCalls]

@[simp] theorem removalTargets_append (l₁ l₂ : List Event) :
    removalTargets (l₁ ++ l₂) = removalTargets l₁ ++ removalTargets l₂ := by
  simp [removalTargets]

theorem Ordinary.append {L : List String} {l₁ l₂ : List Event}
    (h₁ : Ordinary L l₁) (h₂ : Ordinary L l₂) : Ordinary L (l₁ ++ l₂) := by
  intro e he
  rcases List.mem_append.mp he with h | h
  · exact h₁ e h
  · exact h₂ e h

theorem Ordinary.mono {L K : List String} {l : List Event}
    (h : Ordinary L l) (hsub : ∀ m ∈ L, m ∈ K) : Ordinary K l := by
  intro e he
  have := h e he
  cases e with
  | call args r =>
    obtain ⟨m, hm, hmem⟩ := this
    exact ⟨m, hm, hsub m hmem⟩
  | sleep n => trivial
  | print m => exact this

/-- An ordinary log contains no call of a method outside its list. -/
theorem Ordinary.no_call {L : List String} {l : List Event} (h : Ordinary L l)
    {a : List String} {r : Reply} {m : String} (hm : methodOf a = some m)
    (hnot : m ∉ L) : Event.call a r ∉ l := by
  intro he
  obtain ⟨m', hm', hmem⟩ := h _ he
  rw [hm] at hm'
  cases hm'
  exact hnot hmem

/-- An ordinary log does not contain the final success message. -/
theorem Ordinary.no_success {L : List String} {l : List Event} (h : Ordinary L l) :
    Event.print Msg.allSessionsCleared ∉ l := by
  intro he
  exact (h _ he).1 rfl

/-- An ordinary log does not contain the message "Found NO open terminal". -/
theorem Ordinary.no_found_none {L : List String} {l : List Event} (h : Ordinary L l) :
    Event.print Msg.foundNoOpenTerminal ∉ l := by
  intro he
  exact (h _ he).2 rfl

/-- An ordinary log whose methods exclude `removeTerminal` has no `removeTerminal` call. -/
theorem Ordinary.removeCalls_eq_nil {L : List String} {l : List Event} (h : Ordinary L l)
    (hnot : DbusMethodTerminalRemoval ∉ L) : removeCalls l = [] := by
  induction l with
  | nil => rfl
  | cons e l ih =>
    have hl : Ordinary L l := fun e' he' => h e' (List.mem_cons_of_mem _ he')
    have he := h e (List.mem_cons_self _ _)
    have ih' := ih hl
    cases e with
    | call args r =>
      obtain ⟨m, hm, hmem⟩ := he
      have hne : methodOf args ≠ some DbusMethodTerminalRemoval := by
        rw [hm]
        intro hEq
        cases hEq
        exact hnot hmem
      simp only [removeCalls, calls_cons_call] at ih' ⊢
      rw [List.filter_cons_of_neg (by simpa using hne)]
      exact ih'
    | sleep n => simpa [removeCalls] using ih'
    | print m => simpa [removeCalls] using ih'

theorem executeCmd_log (args : List String) (w : σ) :
    (executeCmd g args w).log =
      Event.call args (g w args).1 ::
        (match (g w args).1 with
          | Reply.fail err => [Event.print (Msg.execError err)]
          | Reply.ok _ => []) := by
  unfold executeCmd
  rcases h : g w args with ⟨r, w1⟩
  cases r <;> simp

theorem executeCmd_ordinary (p m : String) (rest : List String) (w : σ) :
    Ordinary [m] (executeCmd g (p :: m :: rest) w).log := by
  rw [executeCmd_log]
  intro e he
  simp only [List.mem_cons] at he
  rcases he with rfl | he
  · exact ⟨m, rfl, by simp⟩
  · cases hr : (g w (p :: m :: rest)).1 with
    | ok out => simp [hr] at he
    | fail err =>
      simp [hr] at he
      subst he
      simp [Event.ordinary]

@[simp] theorem Ordinary_nil (L : List String) : Ordinary L [] := by
  intro e he
  cases he

@[simp] theorem Ordinary_append (L : List String) (l₁ l₂ : List Event) :
    Ordinary L (l₁ ++ l₂) ↔ Ordinary L l₁ ∧ Ordinary L l₂ := by
  constructor
  · intro h
    exact ⟨fun e he => h e (List.mem_append_left _ he), fun e he => h e (List.mem_append_right _ he)⟩
  · rintro ⟨h₁, h₂⟩
    exact Ordinary.append h₁ h₂

@[simp] theorem Ordinary_cons (L : List String) (e : Event) (l : List Event) :
    Ordinary L (e :: l) ↔ e.ordinary L ∧ Ordinary L l := by
  constructor
  · intro h
    exact ⟨h e (List.mem_cons_self _ _), fun e' he' => h e' (List.mem_cons_of_mem _ he')⟩
  · rintro ⟨h₁, h₂⟩ e' he'
    rcases List.mem_cons.mp he' with rfl | h
    · exact h₁
    · exact h₂ e' h

@[simp] theorem ordinary_print (L : List String) (m : Msg) :
    (Event.print m).ordinary L ↔ m ≠ Msg.allSessionsCleared ∧ m ≠ Msg.foundNoOpenTerminal :=
  Iff.rfl

@[simp] theorem ordinary_sleep (L : List String) (n : Nat) :
    (Event.sleep n).ordinary L ↔ True := Iff.rfl

theorem executeCmd_ordinary_of_mem {L : List String} (p m : String) (rest : List String)
    (hm : m ∈ L) (w : σ) : Ordinary L (executeCmd g (p :: m :: rest) w).log :=
  (executeCmd_ordinary g p m rest w).mono (by intro x hx; simp at hx; subst hx; exact hm)

theorem executeCmdVoid_log (args : List String) (w : σ) :
    (executeCmdVoid g args w).log =
      (executeCmd g args w).log ++
        (match (executeCmd g args w).val.2 with
          | some err => [Event.print (Msg.voidWarn err)]
          | none => []) := by
  simp only [executeCmdVoid, Cmd.bind_apply]
  cases (executeCmd g args w).val.2 <;> simp

theorem executeCmdVoid_ordinary {L : List String} (p m : String) (rest : List String)
    (hm : m ∈ L) (w : σ) : Ordinary L (executeCmdVoid g (p :: m :: rest) w).log := by
  rw [executeCmdVoid_log]
  simp only [Ordinary_append]
  refine ⟨executeCmd_ordinary_of_mem g p m rest hm w, ?_⟩
  cases (executeCmd g (p :: m :: rest) w).val.2 <;> simp

theorem getSessionIDForTerminalID_ordinary {L : List String}
    (hm : DbusMethodSessionIDForTerminalID ∈ L) (t : String) (w : σ) :
    Ordinary L (getSessionIDForTerminalID g t w).log := by
  simp only [getSessionIDForTerminalID, Cmd.bind_apply]
  simp only [Ordinary_append]
  refine ⟨executeCmd_ordinary_of_mem g _ _ _ hm w, ?_⟩
  cases (executeCmd g [DbusPathSessions, DbusMethodSessionIDForTerminalID, t] w).val.2 <;> simp

theorem getTitleOfSession_ordinary {L : List String}
    (hm : DbusMethodTabTitle ∈ L) (s : String) (w : σ) :
    Ordinary L (getTitleOfSession g s w).log := by
  simp only [getTitleOfSession, Cmd.bind_apply, Cmd.pure_apply, List.append_nil]
  exact executeCmd_ordinary_of_mem g _ _ _ hm w

theorem isTerminalClosableLoop_ordinary {L : List String}
    (h₁ : DbusMethodTabTitle ∈ L) (h₂ : DbusMethodIsSessionClosable ∈ L)
    (ids : List String) (w : σ) :
    Ordinary L (isTerminalClosableLoop g ids w).log := by
  induction ids generalizing w with
  | nil => simp [isTerminalClosableLoop]
  | cons s rest ih =>
    simp only [isTerminalClosableLoop, Cmd.bind_apply, Ordinary_append]
    refine ⟨getTitleOfSession_ordinary g h₁ s w, executeCmd_ordinary_of_mem g _ _ _ h₂ _, ?_⟩
    cases (executeCmd g [DbusPathSessions, DbusMethodIsSessionClosable, s]
      (getTitleOfSession g s w).world).val.2 with
    | some err => simp
    | none =>
      simp only
      split
      · exact ih _
      · simp

theorem isTerminalClosable_ordinary {L : List String}
    (h₀ : DbusMethodSessionIDForTerminalID ∈ L)
    (h₁ : DbusMethodTabTitle ∈ L) (h₂ : DbusMethodIsSessionClosable ∈ L)
    (t : String) (w : σ) :
    Ordinary L (isTerminalClosable g t w).log := by
  simp only [isTerminalClosable, Cmd.bind_apply, Ordinary_append]
  exact ⟨getSessionIDForTerminalID_ordinary g h₀ t w, isTerminalClosableLoop_ordinary g h₁ h₂ _ _⟩

theorem getCurrentSessionId_ordinary {L : List String}
    (hm : DbusMethodActiveSessionId ∈ L) (w : σ) :
    Ordinary L (getCurrentSessionId g w).log := by
  simp only [getCurrentSessionId, Cmd.bind_apply, Ordinary_append]
  refine ⟨executeCmd_ordinary_of_mem g _ _ _ hm w, ?_⟩
  cases (executeCmd g [DbusPathSessions, DbusMethodActiveSessionId] w).val.2 <;>
    simp <;> split <;> simp

theorem getAllTerminalIDs_ordinary {L : List String}
    (hm : DbusMethodTerminalIDList ∈ L) (w : σ) :
    Ordinary L (getAllTerminalIDs g w).log := by
  simp only [getAllTerminalIDs, Cmd.bind_apply, Ordinary_append]
  refine ⟨executeCmd_ordinary_of_mem g _ _ _ hm w, ?_⟩
  cases (executeCmd g [DbusPathSessions, DbusMethodTerminalIDList] w).val.2 <;> simp

theorem stripLoop_ordinary {L : List String}
    (hm : DbusMethodSessionIDForTerminalID ∈ L) (active : String)
    (fuel i : Nat) (st : StripState) (w : σ) :
    Ordinary L (stripLoop g active fuel i st w).log := by
  induction fuel generalizing i st w with
  | zero => simp [stripLoop]
  | succ n ih =>
    simp only [stripLoop, Cmd.bind_apply, Ordinary_append]
    refine ⟨getSessionIDForTerminalID_ordinary g hm _ w, ?_⟩
    split
    · exact ih _ _ _
    · exact ih _ _ _

@[simp] theorem executeCmd_calls (args : List String) (w : σ) :
    calls (executeCmd g args w).log = [args] := by
  rw [executeCmd_log]
  cases (g w args).1 <;> simp

@[simp] theorem executeCmdVoid_calls (args : List String) (w : σ) :
    calls (executeCmdVoid g args w).log = [args] := by
  rw [executeCmdVoid_log]
  cases (executeCmd g args w).val.2 <;> simp

@[simp] theorem getSessionIDForTerminalID_calls (t : String) (w : σ) :
    calls (getSessionIDForTerminalID g t w).log =
      [[DbusPathSessions, DbusMethodSessionIDForTerminalID, t]] := by
  simp only [getSessionIDForTerminalID, Cmd.bind_apply, calls_append, executeCmd_calls]
  cases (executeCmd g [DbusPathSessions, DbusMethodSessionIDForTerminalID, t] w).val.2 <;> simp

@[simp] theorem getTitleOfSession_calls (s : String) (w : σ) :
    calls (getTitleOfSession g s w).log = [[DbusPathTabs, DbusMethodTabTitle, s]] := by
  simp [getTitleOfSession]

/-- The unlocking loop of a forced removal: one `setSessionClosable id true` call per
session id, in order. -/
@[simp] theorem unlockSessions_calls (sessionID : String) (w : σ) :
    calls (unlockSessions g sessionID w).log =
      (stringsSplit sessionID ',').map
        (fun id => [DbusPathSessions, DbusMethodSetSessionClosable, id, "true"]) := by
  unfold unlockSessions
  induction stringsSplit sessionID ',' generalizing w with
  | nil => simp [Cmd.forEach]
  | cons id rest ih =>
    simp only [Cmd.forEach, Cmd.andThen, Cmd.bind_apply, Cmd.emit_apply, calls_append,
      List.map_cons]
    rw [ih]
    simp

theorem unlockSessions_ordinary {L : List String} (hm : DbusMethodSetSessionClosable ∈ L)
    (sessionID : String) (w : σ) : Ordinary L (unlockSessions g sessionID w).log := by
  unfold unlockSessions
  induction stringsSplit sessionID ',' generalizing w with
  | nil => simp [Cmd.forEach]
  | cons id rest ih =>
    simp only [Cmd.forEach, Cmd.andThen, Cmd.bind_apply, Cmd.emit_apply, Ordinary_append]
    exact ⟨⟨executeCmdVoid_ordinary g _ _ _ hm w, by simp⟩, ih _⟩

@[simp] theorem closeTerminal_calls (t sid : String) (d : Bool) (w : σ) :
    calls (closeTerminal g t sid d w).log =
      [[DbusPathTabs, DbusMethodTabTitle, sid], [DbusPathSessions, DbusMethodTerminalRemoval, t]] := by
  simp only [closeTerminal, Cmd.bind_apply, calls_append, getTitleOfSession_calls,
    executeCmd_calls]
  cases (executeCmd g [DbusPathSessions, DbusMethodTerminalRemoval, t]
    (getTitleOfSession g sid w).world).val.2 <;> simp

/-- A terminal reported non-closable is skipped when the deletion is not forced: the
iteration only queries, prints the warning and leaves `didSomething` as it was. -/
theorem step_skip (t : String) (d : Bool) (w : σ)
    (h : (isTerminalClosable g t w).val.1 = false) :
    (processTerminalRemovalStep g false t d w).log =
      (isTerminalClosable g t w).log ++
        Event.print (Msg.protectedTerminal t ((isTerminalClosable g t w).val.2.getD "")) ::
          (getSessionIDForTerminalID g t (isTerminalClosable g t w).world).log
    ∧ (processTerminalRemovalStep g false t d w).val = d := by
  simp [processTerminalRemovalStep, h]

/-- The gateway calls of one forced iteration, in order. -/
theorem step_forced_calls (t : String) (d : Bool) (w : σ) :
    calls (processTerminalRemovalStep g true t d w).log =
      calls (isTerminalClosable g t w).log ++
        [DbusPathSessions, DbusMethodSessionIDForTerminalID, t] ::
          ((stringsSplit (getSessionIDForTerminalID g t (isTerminalClosable g t w).world).val
              ',').map
              (fun id => [DbusPathSessions, DbusMethodSetSessionClosable, id, "true"]) ++
            [[DbusPathTabs, DbusMethodTabTitle,
                (getSessionIDForTerminalID g t (isTerminalClosable g t w).world).val],
              [DbusPathSessions, DbusMethodTerminalRemoval, t]]) := by
  simp [processTerminalRemovalStep]

theorem processTerminalRemoval_append (force : Bool) (pre post : List String) (d : Bool)
    (w : σ) :
    processTerminalRemoval g force (pre ++ post) d w =
      ⟨(processTerminalRemoval g force post (processTerminalRemoval g force pre d w).val
          (processTerminalRemoval g force pre d w).world).val,
        (processTerminalRemoval g force pre d w).log ++
          (processTerminalRemoval g force post (processTerminalRemoval g force pre d w).val
            (processTerminalRemoval g force pre d w).world).log,
        (processTerminalRemoval g force post (processTerminalRemoval g force pre d w).val
          (processTerminalRemoval g force pre d w).world).world⟩ := by
  induction pre generalizing d w with
  | nil => simp [processTerminalRemoval]
  | cons t rest ih =>
    simp only [List.cons_append, processTerminalRemoval, Cmd.bind_apply, List.append_eq, ih,
      List.append_assoc]

@[simp] theorem removeCalls_cons_print (m : Msg) (l : List Event) :
    removeCalls (Event.print m :: l) = removeCalls l := by
  simp [removeCalls]

@[simp] theorem removeCalls_cons_sleep (n : Nat) (l : List Event) :
    removeCalls (Event.sleep n :: l) = removeCalls l := by
  simp [removeCalls]

theorem removal_not_query : DbusMethodTerminalRemoval ∉ queryMethods := by decide

theorem closeTerminal_removeCalls (t sid : String) (d : Bool) (w : σ) :
    removeCalls (closeTerminal g t sid d w).log =
      [[DbusPathSessions, DbusMethodTerminalRemoval, t]] := by
  simp [removeCalls, methodOf, DbusMethodTabTitle, DbusMethodTerminalRemoval]

/-- The `removeTerminal` calls of one iteration: none when the terminal is skipped,
otherwise the single call for the terminal of the iteration. -/
theorem step_removeCalls (force : Bool) (t : String) (d : Bool) (w : σ) :
    removeCalls (processTerminalRemovalStep g force t d w).log =
      if (isTerminalClosable g t w).val.1 = false ∧ force = false then []
      else [[DbusPathSessions, DbusMethodTerminalRemoval, t]] := by
  have h1 : removeCalls (isTerminalClosable g t w).log = [] :=
    (isTerminalClosable_ordinary g (L := queryMethods) (by decide) (by decide) (by decide)
      t w).removeCalls_eq_nil removal_not_query
  have h2 : ∀ w', removeCalls (getSessionIDForTerminalID g t w').log = [] := fun w' =>
    (getSessionIDForTerminalID_ordinary g (L := queryMethods) (by decide)
      t w').removeCalls_eq_nil removal_not_query
  have h3 : ∀ s w', removeCalls (unlockSessions g s w').log = [] := fun s w' =>
    (unlockSessions_ordinary g (L := queryMethods) (by decide)
      s w').removeCalls_eq_nil removal_not_query
  cases force <;> cases hc : (isTerminalClosable g t w).val.1 <;>
    simp [processTerminalRemovalStep, hc, h1, h2, h3, closeTerminal_removeCalls]

/-- The `removeTerminal` calls of a pass are calls for terminals of the list it was given. -/
theorem processTerminalRemoval_removeCalls (force : Bool) (ids : List String) (d : Bool)
    (w : σ) :
    ∀ args ∈ removeCalls (processTerminalRemoval g force ids d w).log,
      ∃ t ∈ ids, args = [DbusPathSessions, DbusMethodTerminalRemoval, t] := by
  induction ids generalizing d w with
  | nil => simp [processTerminalRemoval]
  | cons t rest ih =>
    intro args hargs
    simp only [processTerminalRemoval, Cmd.bind_apply, removeCalls_append, List.mem_append,
      step_removeCalls] at hargs
    rcases hargs with h | h
    · split at h
      · cases h
      · simp only [List.mem_singleton] at h
        exact ⟨t, List.mem_cons_self _ _, h⟩
    · obtain ⟨t', ht', hEq⟩ := ih _ _ args h
      exact ⟨t', List.mem_cons_of_mem _ ht', hEq⟩

theorem closeTerminal_ordinary {L : List String} (h₁ : DbusMethodTabTitle ∈ L)
    (h₂ : DbusMethodTerminalRemoval ∈ L) (t sid : String) (d : Bool) (w : σ) :
    Ordinary L (closeTerminal g t sid d w).log := by
  simp only [closeTerminal, Cmd.bind_apply, Ordinary_append]
  refine ⟨getTitleOfSession_ordinary g h₁ sid w, executeCmd_ordinary_of_mem g _ _ _ h₂ _, ?_⟩
  cases (executeCmd g [DbusPathSessions, DbusMethodTerminalRemoval, t]
    (getTitleOfSession g sid w).world).val.2 <;> simp

theorem step_ordinary (force : Bool) (t : String) (d : Bool) (w : σ) :
    Ordinary clearingMethods (processTerminalRemovalStep g force t d w).log := by
  have h1 := isTerminalClosable_ordinary g (L := clearingMethods) (by decide) (by decide)
    (by decide) t w
  have h2 := fun w' => getSessionIDForTerminalID_ordinary g (L := clearingMethods)
    (by decide) t w'
  have h3 := fun s w' => unlockSessions_ordinary g (L := clearingMethods) (by decide) s w'
  have h4 := fun s d' w' => closeTerminal_ordinary g (L := clearingMethods) (by decide)
    (by decide) t s d' w'
  cases force <;> cases hc : (isTerminalClosable g t w).val.1 <;>
    simp [processTerminalRemovalStep, hc, h1, h2, h3, h4]

theorem processTerminalRemoval_ordinary (force : Bool) (ids : List String) (d : Bool)
    (w : σ) : Ordinary clearingMethods (processTerminalRemoval g force ids d w).log := by
  induction ids generalizing d w with
  | nil => simp [processTerminalRemoval]
  | cons t rest ih =>
    simp only [processTerminalRemoval, Cmd.bind_apply, Ordinary_append]
    exact ⟨step_ordinary g force t d w, ih _ _⟩

theorem closedSomething_append (l₁ l₂ : List Event) :
    closedSomething (l₁ ++ l₂) ↔ closedSomething l₁ ∨ closedSomething l₂ := by
  simp only [closedSomething, List.mem_append]
  constructor
  · rintro ⟨t, out, h | h⟩
    · exact Or.inl ⟨t, out, h⟩
    · exact Or.inr ⟨t, out, h⟩
  · rintro (⟨t, out, h⟩ | ⟨t, out, h⟩)
    · exact ⟨t, out, Or.inl h⟩
    · exact ⟨t, out, Or.inr h⟩

theorem Ordinary.not_closedSomething {L : List String} {l : List Event} (h : Ordinary L l)
    (hnot : DbusMethodTerminalRemoval ∉ L) : ¬ closedSomething l := by
  rintro ⟨t, out, hmem⟩
  exact h.no_call (a := [DbusPathSessions, DbusMethodTerminalRemoval, t])
    (m := DbusMethodTerminalRemoval) rfl hnot hmem

theorem closeTerminal_val (t sid : String) (d : Bool) (w : σ) :
    (closeTerminal g t sid d w).val = true ↔
      d = true ∨ closedSomething (closeTerminal g t sid d w).log := by
  have h1 : ¬ closedSomething (getTitleOfSession g sid w).log :=
    (getTitleOfSession_ordinary g (L := queryMethods) (by decide)
      sid w).not_closedSomething removal_not_query
  simp only [closeTerminal, Cmd.bind_apply, closedSomething_append, h1, false_or]
  generalize (getTitleOfSession g sid w).world = w1
  generalize (getTitleOfSession g sid w).val = title
  unfold executeCmd
  rcases hg : g w1 [DbusPathSessions, DbusMethodTerminalRemoval, t] with ⟨r, w2⟩
  cases r with
  | ok out =>
    simp [closedSomething]
  | fail err =>
    simp [closedSomething]

@[simp] theorem Cmd.ite_apply {α : Type} {c : Prop} [Decidable c] (a b : Cmd σ α) (w : σ) :
    (if c then a else b) w = if c then a w else b w := by
  split <;> rfl

@[simp] theorem Res.log_ite {α : Type} {c : Prop} [Decidable c] (x y : Res σ α) :
    (if c then x else y).log = if c then x.log else y.log := by
  split <;> rfl

@[simp] theorem Res.val_ite {α : Type} {c : Prop} [Decidable c] (x y : Res σ α) :
    (if c then x else y).val = if c then x.val else y.val := by
  split <;> rfl

@[simp] theorem Res.world_ite {α : Type} {c : Prop} [Decidable c] (x y : Res σ α) :
    (if c then x else y).world = if c then x.world else y.world := by
  split <;> rfl

@[simp] theorem closedSomething_cons_print (m : Msg) (l : List Event) :
    closedSomething (Event.print m :: l) ↔ closedSomething l := by
  simp [closedSomething]

@[simp] theorem closedSomething_nil : ¬ closedSomething [] := by
  simp [closedSomething]

theorem step_val (force : Bool) (t : String) (d : Bool) (w : σ) :
    (processTerminalRemovalStep g force t d w).val = true ↔
      d = true ∨ closedSomething (processTerminalRemovalStep g force t d w).log := by
  have h1 : ¬ closedSomething (isTerminalClosable g t w).log :=
    (isTerminalClosable_ordinary g (L := queryMethods) (by decide) (by decide) (by decide)
      t w).not_closedSomething removal_not_query
  have h2 : ∀ w', ¬ closedSomething (getSessionIDForTerminalID g t w').log := fun w' =>
    (getSessionIDForTerminalID_ordinary g (L := queryMethods) (by decide)
      t w').not_closedSomething removal_not_query
  have h3 : ∀ s w', ¬ closedSomething (unlockSessions g s w').log := fun s w' =>
    (unlockSessions_ordinary g (L := queryMethods) (by decide)
      s w').not_closedSomething removal_not_query
  have h4 : ∀ m : Msg, ¬ closedSomething [Event.print m] := by
    rintro m ⟨t, out, h⟩
    simp at h
  cases force <;> cases hc : (isTerminalClosable g t w).val.1 <;>
    simp [processTerminalRemovalStep, hc, closedSomething_append, h1, h2, h3, h4,
      closeTerminal_val]

theorem processTerminalRemoval_val (force : Bool) (ids : List String) (d : Bool) (w : σ) :
    (processTerminalRemoval g force ids d w).val = true ↔
      d = true ∨ closedSomething (processTerminalRemoval g force ids d w).log := by
  induction ids generalizing d w with
  | nil => simp [processTerminalRemoval, closedSomething]
  | cons t rest ih =>
    simp only [processTerminalRemoval, Cmd.bind_apply, closedSomething_append]
    rw [ih, step_val]
    tauto

theorem removalPasses_val (force : Bool) (st : StripState) (w : σ) :
    (removalPasses g force st w).val = true ↔ closedSomething (removalPasses g force st w).log := by
  simp only [removalPasses, Cmd.bind_apply]
  split
  · simp only [closedSomething_append, processTerminalRemoval_val]
    simp
  · simp [processTerminalRemoval_val, closedSomething_append, closedSomething]

theorem removalPasses_ordinary (force : Bool) (st : StripState) (w : σ) :
    Ordinary clearingMethods (removalPasses g force st w).log := by
  simp only [removalPasses, Cmd.bind_apply, Ordinary_append]
  refine ⟨processTerminalRemoval_ordinary g force _ _ w, ?_⟩
  split
  · exact processTerminalRemoval_ordinary g force _ _ _
  · simp

theorem activeSessionFor_ordinary {L : List String} (hm : DbusMethodActiveSessionId ∈ L)
    (last : Option String) (w : σ) : Ordinary L (activeSessionFor g last w).log := by
  cases last with
  | none => exact getCurrentSessionId_ordinary g hm w
  | some s => simp [activeSessionFor]

theorem stripActive_ordinary {L : List String} (hm : DbusMethodSessionIDForTerminalID ∈ L)
    (active : String) (ids : List String) (w : σ) :
    Ordinary L (stripActive g active ids w).log :=
  stripLoop_ordinary g hm active _ _ _ w

/-- The events of `clearSessions`, piece by piece. -/
theorem clearSessions_log (force : Bool) (ids : List String) (last : Option String) (w : σ) :
    (clearSessions g force ids last w).log =
      (activeSessionFor g last w).log ++
        Event.print (foundMessage ids.length) ::
          ((if force then [Event.print Msg.forcedWarning] else []) ++
            ((stripActive g (activeSessionFor g last w).val ids
                (activeSessionFor g last w).world).log ++
              ((removalPasses g force
                  (stripActive g (activeSessionFor g last w).val ids
                    (activeSessionFor g last w).world).val
                  (stripActive g (activeSessionFor g last w).val ids
                    (activeSessionFor g last w).world).world).log ++
                (if (removalPasses g force
                    (stripActive g (activeSessionFor g last w).val ids
                      (activeSessionFor g last w).world).val
                    (stripActive g (activeSessionFor g last w).val ids
                      (activeSessionFor g last w).world).world).val = true
                  then [Event.print Msg.allSessionsCleared] else [])))) := by
  simp only [clearSessions, Cmd.bind_apply, foundMessage, Cmd.ite_apply, Res.log_ite,
    Res.world_ite, Cmd.emit_apply, Cmd.pure_apply]
  cases force <;> by_cases h0 : ids.length = 0 <;>
    by_cases h1 : ids.length = 1 <;> simp [h0, h1]

theorem splitChars_ne_nil (sep : Char) (cs : List Char) : splitChars sep cs ≠ [] := by
  induction cs with
  | nil => simp [splitChars]
  | cons c cs ih =>
    unfold splitChars
    split
    · simp
    · split <;> simp

/-- Go `strings.Split` never returns an empty slice for a non-empty separator. -/
theorem stringsSplit_ne_nil (s : String) (sep : Char) : stringsSplit s sep ≠ [] := by
  simp [stringsSplit, splitChars_ne_nil]

theorem appendInPlace_length (arr : List String) (i : Nat) (h : i < arr.length) :
    (appendInPlace arr i).length = arr.length := by
  simp only [appendInPlace, List.length_append, List.length_take, List.length_drop]
  omega

theorem mem_appendInPlace {arr : List String} {i : Nat} {x : String}
    (h : x ∈ appendInPlace arr i) : x ∈ arr := by
  simp only [appendInPlace, List.mem_append] at h
  rcases h with (h | h) | h
  · exact List.mem_of_mem_take h
  · exact List.mem_of_mem_drop h
  · exact List.mem_of_mem_drop h

/-- The stripping loop only moves candidates around: every cell of the backing array and
every postponed id is one of the ids the array held, and the array keeps its length. -/
theorem stripLoop_mem (ids : List String) (active : String) (fuel i : Nat) (st : StripState)
    (w : σ) (hlen : i + fuel = st.arr.length) (harr : ∀ x ∈ st.arr, x ∈ ids)
    (hpost : ∀ x ∈ st.postponedTerminalIDs, x ∈ ids) :
    (∀ x ∈ (stripLoop g active fuel i st w).val.arr, x ∈ ids) ∧
      (∀ x ∈ (stripLoop g active fuel i st w).val.postponedTerminalIDs, x ∈ ids) := by
  induction fuel generalizing i st w with
  | zero => exact ⟨by simpa [stripLoop] using harr, by simpa [stripLoop] using hpost⟩
  | succ n ih =>
    have hi : i < st.arr.length := by omega
    have hget : st.arr.getD i "" ∈ st.arr := by
      rw [List.getD_eq_getElem _ _ hi]
      exact List.getElem_mem _
    simp only [stripLoop, Cmd.bind_apply, Cmd.ite_apply, Res.val_ite]
    split
    · apply ih
      · simp only [appendInPlace_length _ _ hi]
        omega
      · intro x hx
        exact harr x (mem_appendInPlace hx)
      · intro x hx
        simp only [List.mem_append, List.mem_singleton] at hx
        rcases hx with hx | rfl
        · exact hpost x hx
        · exact harr _ hget
    · apply ih
      · omega
      · exact harr
      · exact hpost

theorem stripActive_mem (active : String) (ids : List String) (w : σ) :
    (∀ x ∈ (stripActive g active ids w).val.cleanedUpTerminalIDList, x ∈ ids) ∧
      (∀ x ∈ (stripActive g active ids w).val.postponedTerminalIDs, x ∈ ids) := by
  have h := stripLoop_mem g ids active ids.length 0
    { arr := ids, cleanedLen := ids.length, isCurrentTerminalPostponed := false,
      postponedTerminalIDs := [] } w (by simp) (fun x hx => hx) (by simp)
  refine ⟨?_, h.2⟩
  intro x hx
  exact h.1 x (List.mem_of_mem_take hx)

theorem removalPasses_removeCalls (force : Bool) (st : StripState) (w : σ) :
    ∀ args ∈ removeCalls (removalPasses g force st w).log,
      ∃ t, (t ∈ st.cleanedUpTerminalIDList ∨ t ∈ st.postponedTerminalIDs) ∧
        args = [DbusPathSessions, DbusMethodTerminalRemoval, t] := by
  intro args hargs
  simp only [removalPasses, Cmd.bind_apply, Cmd.ite_apply, Res.log_ite, removeCalls_append,
    List.mem_append] at hargs
  rcases hargs with h | h
  · obtain ⟨t, ht, hEq⟩ := processTerminalRemoval_removeCalls g force _ _ _ args h
    exact ⟨t, Or.inl ht, hEq⟩
  · split at h
    · obtain ⟨t, ht, hEq⟩ := processTerminalRemoval_removeCalls g force _ _ _ args h
      exact ⟨t, Or.inr ht, hEq⟩
    · simp at h

/-- Every `removeTerminal` call of `clearSessions` is for one of the candidates. -/
theorem clearSessions_removeCalls (force : Bool) (ids : List String) (last : Option String)
    (w : σ) :
    ∀ args ∈ removeCalls (clearSessions g force ids last w).log,
      ∃ t ∈ ids, args = [DbusPathSessions, DbusMethodTerminalRemoval, t] := by
  intro args hargs
  rw [clearSessions_log] at hargs
  have ha : removeCalls (activeSessionFor g last w).log = [] :=
    (activeSessionFor_ordinary g (L := queryMethods) (by decide)
      last w).removeCalls_eq_nil removal_not_query
  have hs : ∀ a w', removeCalls (stripActive g a ids w').log = [] := fun a w' =>
    (stripActive_ordinary g (L := queryMethods) (by decide)
      a ids w').removeCalls_eq_nil removal_not_query
  have hsplit : ∀ (c : Prop) [Decidable c] (m : Msg),
      removeCalls (if c then [Event.print m] else []) = [] := by
    intro c _ m
    split <;> simp
  simp only [removeCalls_append, removeCalls_cons_print, ha, hs, hsplit, List.nil_append,
    List.append_nil] at hargs
  obtain ⟨t, ht, hEq⟩ := removalPasses_removeCalls g force _ _ args hargs
  have hm := stripActive_mem g (activeSessionFor g last w).val ids (activeSessionFor g last w).world
  rcases ht with ht | ht
  · exact ⟨t, hm.1 t ht, hEq⟩
  · exact ⟨t, hm.2 t ht, hEq⟩

@[simp] theorem callsOf_nil (L : List String) : callsOf L [] = [] := rfl

@[simp] theorem callsOf_append (L : List String) (l₁ l₂ : List Event) :
    callsOf L (l₁ ++ l₂) = callsOf L l₁ ++ callsOf L l₂ := by
  simp [callsOf]

@[simp] theorem callsOf_cons_print (L : List String) (m : Msg) (l : List Event) :
    callsOf L (Event.print m :: l) = callsOf L l := by
  simp [callsOf]

@[simp] theorem callsOf_cons_sleep (L : List String) (n : Nat) (l : List Event) :
    callsOf L (Event.sleep n :: l) = callsOf L l := by
  simp [callsOf]

/-- An ordinary log has no call of a method outside its list. -/
theorem Ordinary.callsOf_eq_nil {L K : List String} {l : List Event} (h : Ordinary L l)
    (hdisj : ∀ m ∈ L, m ∉ K) : callsOf K l = [] := by
  induction l with
  | nil => rfl
  | cons e l ih =>
    obtain ⟨he, hl⟩ := (Ordinary_cons L e l).mp h
    have ih' := ih hl
    cases e with
    | call args r =>
      obtain ⟨m, hm, hmem⟩ := he
      simp only [callsOf, calls_cons_call] at ih' ⊢
      rw [List.filter_cons_of_neg (by simpa [hm] using hdisj m hmem)]
      exact ih'
    | sleep n => simpa using ih'
    | print m => simpa using ih'

theorem getTerminalIDsForSessionID_ordinary {L : List String}
    (hm : DbusMethodTerminalIDListForSessionID ∈ L) (s : String) (w : σ) :
    Ordinary L (getTerminalIDsForSessionID g s w).log := by
  simp only [getTerminalIDsForSessionID, Cmd.bind_apply, Cmd.pure_apply, List.append_nil]
  exact executeCmd_ordinary_of_mem g _ _ _ hm w

theorem isWindowShown_ordinary {L : List String} (hm : DbusMethodQwidgetVisible ∈ L)
    (w : σ) : Ordinary L (isWindowShown g w).log := by
  simp only [isWindowShown, Cmd.bind_apply, Ordinary_append]
  refine ⟨executeCmd_ordinary_of_mem g _ _ _ hm w, ?_⟩
  cases (executeCmd g [DbusPathMainwindow, DbusMethodQwidgetVisible] w).val.2 with
  | some err => simp
  | none =>
    simp only
    cases strconvParseBool (executeCmd g [DbusPathMainwindow, DbusMethodQwidgetVisible] w).val.1
      <;> simp

theorem executeCommandInTerminal_ordinary {L : List String}
    (hm : DbusMethodRunCommandInTerminal ∈ L) (c t : String) (w : σ) :
    Ordinary L (executeCommandInTerminal g c t w).log := by
  simp only [executeCommandInTerminal, Cmd.bind_apply, Cmd.emit_apply, Ordinary_append]
  exact ⟨by simp, executeCmdVoid_ordinary g _ _ _ hm w⟩

theorem forEach_ordinary {α : Type} {L : List String} (xs : List α) (body : α → Cmd σ Unit)
    (h : ∀ x w, Ordinary L (body x w).log) (w : σ) :
    Ordinary L (Cmd.forEach xs body w).log := by
  induction xs generalizing w with
  | nil => simp [Cmd.forEach]
  | cons x rest ih =>
    simp only [Cmd.forEach, Cmd.andThen, Ordinary_append]
    exact ⟨h x w, ih _⟩

theorem forEach_calls {α : Type} (xs : List α) (body : α → Cmd σ Unit)
    (f : α → List (List String)) (h : ∀ x w, calls (body x w).log = f x) (w : σ) :
    calls (Cmd.forEach xs body w).log = xs.flatMap f := by
  induction xs generalizing w with
  | nil => simp [Cmd.forEach]
  | cons x rest ih =>
    simp only [Cmd.forEach, Cmd.andThen, calls_append, List.flatMap_cons, h, ih]

@[simp] theorem executeCommandInTerminal_calls (c t : String) (w : σ) :
    calls (executeCommandInTerminal g c t w).log =
      [[DbusPathSessions, DbusMethodRunCommandInTerminal, t, c]] := by
  simp [executeCommandInTerminal]

theorem startSession_ordinary (toLower : String → String) (tab : TabDescription) (w : σ) :
    Ordinary creationMethods (startSession g toLower tab w).log := by
  simp only [startSession]
  split
  · simp only [Cmd.bind_apply, Cmd.pure_apply, List.append_nil]
    exact executeCmd_ordinary_of_mem g _ _ _ (by decide) w
  · split
    · simp only [Cmd.bind_apply, Cmd.pure_apply, List.append_nil]
      exact executeCmd_ordinary_of_mem g _ _ _ (by decide) w
    · split
      · simp only [Cmd.bind_apply, Cmd.pure_apply, List.append_nil]
        exact executeCmd_ordinary_of_mem g _ _ _ (by decide) w
      · simp only [Cmd.bind_apply, Cmd.pure_apply, List.append_nil]
        exact executeCmd_ordinary_of_mem g _ _ _ (by decide) w

theorem runTabCommands_ordinary {L : List String} (hm : DbusMethodRunCommandInTerminal ∈ L)
    (tab : TabDescription) (ids : List String) (w : σ) :
    Ordinary L (runTabCommands g tab ids w).log := by
  have hx : ∀ c t w', Ordinary L (executeCommandInTerminal g c t w').log :=
    fun c t w' => executeCommandInTerminal_ordinary g hm c t w'
  have hf : ∀ (cmds : List String) (t : String) (w' : σ),
      Ordinary L (Cmd.forEach cmds (fun c => executeCommandInTerminal g c t) w').log :=
    fun cmds t w' => forEach_ordinary cmds _ (fun c w'' => hx c t w'') w'
  simp only [runTabCommands, Cmd.bind_apply, Ordinary_append]
  refine ⟨forEach_ordinary _ _ (fun c w' => forEach_ordinary _ _ (fun t w'' => hx c t w'') w') w,
    ?_, ?_, ?_, ?_⟩
  all_goals
    split
    · exact hf _ _ _
    · simp

theorem applyTabFlags_ordinary (tab : TabDescription) (sid : String) (w : σ) :
    Ordinary flagMethods (applyTabFlags g tab sid w).log := by
  have hv : ∀ (p m : String) (rest : List String) (w' : σ), m ∈ flagMethods →
      Ordinary flagMethods (executeCmdVoid g (p :: m :: rest) w').log :=
    fun p m rest w' hm => executeCmdVoid_ordinary g p m rest hm w'
  simp only [applyTabFlags, Cmd.bind_apply, Ordinary_append, Cmd.emit_apply]
  refine ⟨?_, ?_, ?_, ?_, by simp⟩
  all_goals
    split
    · exact hv _ _ _ _ (by decide)
    · simp

theorem splitModeMethod_mem (mode : String) : splitModeMethod mode ∈ creationMethods := by
  unfold splitModeMethod
  split
  · decide
  · split
    · decide
    · split <;> decide

/-- Opening a session is one call of the method the split mode maps to. -/
theorem startSession_eq (toLower : String → String) (tab : TabDescription) (w : σ) :
    startSession g toLower tab w =
      ⟨(executeCmd g [DbusPathSessions, splitModeMethod (toLower tab.SplitMode)] w).val.1,
        (executeCmd g [DbusPathSessions, splitModeMethod (toLower tab.SplitMode)] w).log,
        (executeCmd g [DbusPathSessions, splitModeMethod (toLower tab.SplitMode)] w).world⟩ := by
  simp only [startSession, splitModeMethod, List.mem_cons, List.mem_singleton, List.not_mem_nil,
    or_false]
  split
  · simp
  · split
    · simp
    · split <;> simp

theorem callsOf_executeCmd_mem {L : List String} (p m : String) (rest : List String)
    (hm : m ∈ L) (w : σ) : callsOf L (executeCmd g (p :: m :: rest) w).log = [p :: m :: rest] := by
  simp [callsOf, methodOf, hm]

theorem string_length_eq_zero (s : String) : s.length = 0 ↔ s = "" := by
  constructor
  · intro h
    cases s with
    | mk data =>
      simp only [String.length] at h
      rw [List.length_eq_zero] at h
      subst h
      rfl
  · rintro rfl
    rfl

theorem executeCmd_val_ok (args : List String) (w : σ) (out : String)
    (h : (g w args).1 = Reply.ok out) :
    (executeCmd g args w).val = (stringsTrim out '\n', none) := by
  unfold executeCmd
  rcases hg : g w args with ⟨r, w1⟩
  rw [hg] at h
  simp only at h
  subst h
  rfl

theorem executeCmd_head_mem (args : List String) (w : σ) :
    Event.call args (g w args).1 ∈ (executeCmd g args w).log := by
  rw [executeCmd_log]
  exact List.mem_cons_self _ _

theorem setUpTab_ordinary (tab : TabDescription) (sid : String) (w : σ) :
    Ordinary tabMethods (setUpTab g tab sid w).log := by
  simp only [setUpTab, Cmd.bind_apply, Ordinary_append]
  exact ⟨executeCmdVoid_ordinary g _ _ _ (by decide) w,
    getTerminalIDsForSessionID_ordinary g (by decide) _ _,
    runTabCommands_ordinary g (by decide) _ _ _,
    (applyTabFlags_ordinary g _ _ _).mono (by decide)⟩

theorem creation_not_tab : ∀ m ∈ tabMethods, m ∉ creationMethods := by decide

/-- One tab whose creation call returned a non-empty id: exactly that one creation call,
and the replay goes on. -/
theorem loadTab_creation (toLower : String → String) (tab : TabDescription) (w : σ)
    (hgood : ∀ args r, Event.call args r ∈ (loadTab g toLower tab w).log → IsCreation args →
      ∃ out, r = Reply.ok out ∧ stringsTrim out '\n' ≠ "") :
    callsOf creationMethods (loadTab g toLower tab w).log =
        [[DbusPathSessions, splitModeMethod (toLower tab.SplitMode)]] ∧
      (loadTab g toLower tab w).val = none := by
  have hmem := splitModeMethod_mem (toLower tab.SplitMode)
  have hfirst : Event.call [DbusPathSessions, splitModeMethod (toLower tab.SplitMode)]
      (g w [DbusPathSessions, splitModeMethod (toLower tab.SplitMode)]).1 ∈
      (loadTab g toLower tab w).log := by
    simp only [loadTab, Cmd.bind_apply, startSession_eq]
    exact List.mem_append_left _ (executeCmd_head_mem g _ w)
  obtain ⟨out, hout, hne⟩ := hgood _ _ hfirst ⟨_, hmem, rfl⟩
  have hval := executeCmd_val_ok g _ w out hout
  have hlen : ¬ (stringsTrim out '\n').length = 0 := by
    rw [string_length_eq_zero]
    exact hne
  have htail := fun sid w' => (setUpTab_ordinary g tab sid w').callsOf_eq_nil creation_not_tab
  simp [loadTab, startSession_eq, hval, hlen, callsOf_executeCmd_mem g _ _ _ hmem, htail]

theorem loadTabs_creation (toLower : String → String) (tabs : List TabDescription) (w : σ)
    (hgood : ∀ args r, Event.call args r ∈ (loadTabs g toLower tabs w).log → IsCreation args →
      ∃ out, r = Reply.ok out ∧ stringsTrim out '\n' ≠ "") :
    callsOf creationMethods (loadTabs g toLower tabs w).log =
        tabs.map (fun tab => [DbusPathSessions, splitModeMethod (toLower tab.SplitMode)]) ∧
      (loadTabs g toLower tabs w).val = none := by
  induction tabs generalizing w with
  | nil => simp [loadTabs]
  | cons tab rest ih =>
    have h1 := loadTab_creation g toLower tab w (fun args r hmem hc =>
      hgood args r (by
        simp only [loadTabs, Cmd.bind_apply]
        exact List.mem_append_left _ hmem) hc)
    simp only [loadTabs, Cmd.bind_apply, h1.2] at hgood ⊢
    have h2 := ih _ (fun args r hmem hc => hgood args r (List.mem_append_right _ hmem) hc)
    simp [h1.1, h2]

theorem loadTab_ordinary (toLower : String → String) (tab : TabDescription) (w : σ) :
    Ordinary (creationMethods ++ tabMethods) (loadTab g toLower tab w).log := by
  simp only [loadTab, Cmd.bind_apply, Ordinary_append, Cmd.ite_apply, Res.log_ite,
    Cmd.pure_apply]
  refine ⟨(startSession_ordinary g toLower tab w).mono
    (fun m hm => List.mem_append_left _ hm), ?_⟩
  split
  · simp
  · simp only [List.append_nil]
    exact (setUpTab_ordinary g tab _ _).mono (fun m hm => List.mem_append_right _ hm)

theorem loadTabs_ordinary (toLower : String → String) (tabs : List TabDescription) (w : σ) :
    Ordinary (creationMethods ++ tabMethods) (loadTabs g toLower tabs w).log := by
  induction tabs generalizing w with
  | nil => simp [loadTabs]
  | cons tab rest ih =>
    simp only [loadTabs, Cmd.bind_apply, Ordinary_append]
    refine ⟨loadTab_ordinary g toLower tab w, ?_⟩
    cases (loadTab g toLower tab w).val with
    | some err => simp
    | none => exact ih _

/-- The events of `LoadSession` after the lookup, when the enumeration fails. -/
theorem loadProfile_enum_error (toLower : String → String) (profile : ProfileDescription)
    (w : σ) (err : String)
    (henum : (getAllTerminalIDs g (getCurrentSessionId g w).world).val = Except.error err) :
    (loadProfile g toLower profile w).log =
        (getCurrentSessionId g w).log ++ (getAllTerminalIDs g (getCurrentSessionId g w).world).log ∧
      (loadProfile g toLower profile w).val = some err := by
  simp [loadProfile, henum]

/-- The events of `LoadSession` after the lookup, when a session could not be created. -/
theorem loadProfile_tab_error (toLower : String → String) (profile : ProfileDescription)
    (w : σ) (ids : List String) (err : String)
    (henum : (getAllTerminalIDs g (getCurrentSessionId g w).world).val = Except.ok ids)
    (htabs : (loadTabs g toLower profile.Tabs
      (getAllTerminalIDs g (getCurrentSessionId g w).world).world).val = some err) :
    (loadProfile g toLower profile w).log =
        (getCurrentSessionId g w).log ++
          ((getAllTerminalIDs g (getCurrentSessionId g w).world).log ++
            (loadTabs g toLower profile.Tabs
              (getAllTerminalIDs g (getCurrentSessionId g w).world).world).log) ∧
      (loadProfile g toLower profile w).val = some err := by
  simp [loadProfile, henum, htabs]

/-- The events of `LoadSession` after the lookup, when every tab was replayed: the two
snapshots, the tabs, the window handling and, when the profile asks for it, the clearing of
the snapshot with the snapshotted session id as the protected one. -/
theorem loadProfile_ok (toLower : String → String) (profile : ProfileDescription)
    (w : σ) (ids : List String)
    (henum : (getAllTerminalIDs g (getCurrentSessionId g w).world).val = Except.ok ids)
    (htabs : (loadTabs g toLower profile.Tabs
      (getAllTerminalIDs g (getCurrentSessionId g w).world).world).val = none) :
    ∃ (win : List Event) (w' : σ), Ordinary windowMethods win ∧
      (loadProfile g toLower profile w).log =
        (getCurrentSessionId g w).log ++
          ((getAllTerminalIDs g (getCurrentSessionId g w).world).log ++
            ((loadTabs g toLower profile.Tabs
              (getAllTerminalIDs g (getCurrentSessionId g w).world).world).log ++
              (win ++ (if profile.ClearAll = true then
                (clearSessions g profile.ForceClear ids (some (getCurrentSessionId g w).val)
                  w').log else [])))) ∧
      (loadProfile g toLower profile w).val = none := by
  have hw := fun w' => isWindowShown_ordinary g (L := windowMethods) (by decide) w'
  have ht := fun w' => executeCmdVoid_ordinary g (L := windowMethods) DbusPathWindow
    DbusMethodToggleState [] (by decide) w'
  simp only [loadProfile, Cmd.bind_apply, henum, htabs, Cmd.ite_apply, Res.log_ite,
    Res.world_ite, Cmd.pure_apply, List.append_nil, Res.val_ite]
  generalize (loadTabs g toLower profile.Tabs
      (getAllTerminalIDs g (getCurrentSessionId g w).world).world).world = w1
  cases hs : (isWindowShown g w1).val
  · refine ⟨(isWindowShown g w1).log ++
      (executeCmdVoid g [DbusPathWindow, DbusMethodToggleState] (isWindowShown g w1).world).log,
      (executeCmdVoid g [DbusPathWindow, DbusMethodToggleState] (isWindowShown g w1).world).world,
      ?_, ?_, ?_⟩
    · simp only [Ordinary_append]
      exact ⟨hw _, ht _⟩
    · cases profile.ClearAll <;> simp
    · cases profile.ClearAll <;> simp
  · refine ⟨(isWindowShown g w1).log, (isWindowShown g w1).world, hw _, ?_, ?_⟩
    · cases profile.ClearAll <;> simp
    · cases profile.ClearAll <;> simp

theorem Ordinary.callsOf_eq_calls {L K : List String} {l : List Event} (h : Ordinary L l)
    (hsub : ∀ m ∈ L, m ∈ K) : callsOf K l = calls l := by
  induction l with
  | nil => rfl
  | cons e l ih =>
    obtain ⟨he, hl⟩ := (Ordinary_cons L e l).mp h
    have ih' := ih hl
    cases e with
    | call args r =>
      obtain ⟨m, hm, hmem⟩ := he
      simp only [callsOf, calls_cons_call] at ih' ⊢
      rw [List.filter_cons_of_pos (by simpa [hm] using hsub m hmem), ih']
    | sleep n => simpa using ih'
    | print m => simpa using ih'

theorem slot_calls (cmds : List String) (t : String) (w : σ) :
    calls (Cmd.forEach cmds (fun c => executeCommandInTerminal g c t) w).log =
      cmds.map (fun c => [DbusPathSessions, DbusMethodRunCommandInTerminal, t, c]) := by
  rw [forEach_calls cmds _ (fun c => [[DbusPathSessions, DbusMethodRunCommandInTerminal, t, c]])
    (fun c w' => executeCommandInTerminal_calls g c t w')]
  induction cmds with
  | nil => rfl
  | cons c rest ih => simp [List.flatMap_cons, ih]

theorem shared_calls (cmds ids : List String) (w : σ) :
    calls (Cmd.forEach cmds (fun c =>
      Cmd.forEach ids (fun t => executeCommandInTerminal g c t)) w).log =
      cmds.flatMap (fun c =>
        ids.map (fun t => [DbusPathSessions, DbusMethodRunCommandInTerminal, t, c])) := by
  apply forEach_calls
  intro c w'
  rw [forEach_calls ids _ (fun t => [[DbusPathSessions, DbusMethodRunCommandInTerminal, t, c]])
    (fun t w'' => executeCommandInTerminal_calls g c t w'')]
  induction ids with
  | nil => rfl
  | cons t rest ih => simp [List.flatMap_cons, ih]

/-- The gateway calls of the command part of a tab replay: the shared commands on every
fetched terminal, then for each slot its commands against the terminal at the slot's
position, when the fetched list has that position. -/
theorem runTabCommands_calls (tab : TabDescription) (ids : List String) (w : σ) :
    calls (runTabCommands g tab ids w).log =
      tab.Commands.flatMap (fun c =>
        ids.map (fun t => [DbusPathSessions, DbusMethodRunCommandInTerminal, t, c])) ++
      (List.range 4).flatMap (fun k => slotCalls (tab.slot k) ids[k]?) := by
  have hr : List.range 4 = [0, 1, 2, 3] := by decide
  simp only [runTabCommands, Cmd.bind_apply, calls_append, shared_calls, hr]
  rcases ids with _ | ⟨a, _ | ⟨b, _ | ⟨c, _ | ⟨d, rest⟩⟩⟩⟩ <;>
    simp [slot_calls, slotCalls, TabDescription.slot, List.flatMap_cons]

theorem clearSessions_callsOf {K : List String} (hdisj : ∀ m ∈ clearingMethods, m ∉ K)
    (force : Bool) (ids : List String) (last : Option String) (w : σ) :
    callsOf K (clearSessions g force ids last w).log = [] := by
  rw [clearSessions_log]
  have ha := ((activeSessionFor_ordinary g (L := clearingMethods) (by decide)
    last w)).callsOf_eq_nil hdisj
  have hs := fun a w' => ((stripActive_ordinary g (L := clearingMethods) (by decide)
    a ids w')).callsOf_eq_nil hdisj
  have hp := fun st w' => (removalPasses_ordinary g force st w').callsOf_eq_nil hdisj
  have hsplit : ∀ (c : Prop) [Decidable c] (m : Msg),
      callsOf K (if c then [Event.print m] else []) = [] := by
    intro c _ m
    split <;> simp
  simp only [callsOf_append, callsOf_cons_print, ha, hs, hp, hsplit, List.append_nil]

theorem removeCalls_eq_callsOf (l : List Event) :
    removeCalls l = callsOf [DbusMethodTerminalRemoval] l := by
  simp only [removeCalls, callsOf]
  congr 1
  funext args
  cases h : methodOf args <;> simp

theorem removal_not_replay : ∀ m ∈ replayMethods, m ∉ [DbusMethodTerminalRemoval] := by decide

/-- Every `removeTerminal` call of `LoadSession` after the lookup is for a terminal of the
snapshot taken before the first tab. -/
theorem loadProfile_removeCalls (toLower : String → String) (profile : ProfileDescription)
    (w : σ) :
    ∀ args ∈ removeCalls (loadProfile g toLower profile w).log,
      ∃ ids, (getAllTerminalIDs g (getCurrentSessionId g w).world).val = Except.ok ids ∧
        ∃ t ∈ ids, args = [DbusPathSessions, DbusMethodTerminalRemoval, t] := by
  have hc : removeCalls (getCurrentSessionId g w).log = [] := by
    rw [removeCalls_eq_callsOf]
    exact (getCurrentSessionId_ordinary g (L := replayMethods) (by decide)
      w).callsOf_eq_nil removal_not_replay
  have he : removeCalls (getAllTerminalIDs g (getCurrentSessionId g w).world).log = [] := by
    rw [removeCalls_eq_callsOf]
    exact (getAllTerminalIDs_ordinary g (L := replayMethods) (by decide)
      _).callsOf_eq_nil removal_not_replay
  have ht : removeCalls (loadTabs g toLower profile.Tabs
      (getAllTerminalIDs g (getCurrentSessionId g w).world).world).log = [] := by
    rw [removeCalls_eq_callsOf]
    exact (loadTabs_ordinary g toLower _ _).callsOf_eq_nil (by decide)
  intro args hargs
  cases henum : (getAllTerminalIDs g (getCurrentSessionId g w).world).val with
  | error err =>
    rw [(loadProfile_enum_error g toLower profile w err henum).1] at hargs
    simp [hc, he] at hargs
  | ok ids =>
    refine ⟨ids, rfl, ?_⟩
    cases htabs : (loadTabs g toLower profile.Tabs
        (getAllTerminalIDs g (getCurrentSessionId g w).world).world).val with
    | some err =>
      rw [(loadProfile_tab_error g toLower profile w ids err henum htabs).1] at hargs
      simp [hc, he, ht] at hargs
    | none =>
      obtain ⟨win, w', hwin, hlog, _⟩ := loadProfile_ok g toLower profile w ids henum htabs
      have hw : removeCalls win = [] := by
        rw [removeCalls_eq_callsOf]
        exact hwin.callsOf_eq_nil (by decide)
      rw [hlog] at hargs
      simp only [removeCalls_append, hc, he, ht, hw, List.nil_append] at hargs
      split at hargs
      · exact clearSessions_removeCalls g _ _ _ _ args hargs
      · simp at hargs

theorem creationAnswered_all (log : List Event) (h : ∀ e ∈ log, creationAnswered e = true) :
    ∀ args r, Event.call args r ∈ log → IsCreation args →
      ∃ out, r = Reply.ok out ∧ stringsTrim out '\n' ≠ "" := by
  intro args r hmem hc
  have := h _ hmem
  cases r with
  | ok out =>
    refine ⟨out, rfl, ?_⟩
    simp only [creationAnswered, Bool.or_eq_true, Bool.not_eq_true',
      decide_eq_false_iff_not] at this
    rcases this with h1 | h1
    · exact absurd hc h1
    · exact h1
  | fail err =>
    exfalso
    simp only [creationAnswered, Bool.not_eq_true', decide_eq_false_iff_not] at this
    exact this hc

theorem GetProfileLoop_none (number : Int) (ps : List ProfileDescription) (i : Nat)
    (h : number ≤ i ∨ number > i + ps.length) : GetProfileLoop number ps i = none := by
  induction ps generalizing i with
  | nil => rfl
  | cons v rest ih =>
    simp only [List.length_cons, Nat.cast_add, Nat.cast_one] at h
    have hne : ¬ ((i : Int) + 1 = number) := by omega
    simp only [GetProfileLoop, hne, if_false]
    apply ih
    simp only [Nat.cast_add, Nat.cast_one]
    omega

/-- A profile id outside `1..len` is not found when the profile list is present: the
guard lets `len + 1` through, the loop then runs to its end. -/
theorem GetProfile_out_of_range (ps : List ProfileDescription) (number : Int)
    (h : number ≤ 0 ∨ number > ps.length) :
    GetProfile { Profiles := some ps } number =
      Outcome.returned (Except.error (profileNotFoundError number)) := by
  unfold GetProfile
  split
  · rfl
  · simp only
    split
    · rfl
    · rw [GetProfileLoop_none number ps 0 (by
        rcases h with h | h
        · left
          simpa using h
        · right
          simpa using h)]

/-- With the profile list present, `LoadSession` with an id outside `1..len` returns the
not-found error and issues no gateway call. -/
theorem LoadSession_out_of_range (toLower : String → String) (ps : List ProfileDescription)
    (number : Int) (h : number ≤ 0 ∨ number > ps.length) (w : σ) :
    (LoadSession g toLower { Profiles := some ps } number w).val =
        Outcome.returned (some (profileNotFoundError number)) ∧
      (LoadSession g toLower { Profiles := some ps } number w).log = [] := by
  simp [LoadSession, GetProfile_out_of_range ps number h]

/-- When `isTerminalClosable` reports a terminal non-closable its title pointer is not
nil, so the dereference in the warning of `processTerminalRemoval` is safe. -/
theorem isTerminalClosableLoop_title (ids : List String) (w : σ)
    (h : (isTerminalClosableLoop g ids w).val.1 = false) :
    (isTerminalClosableLoop g ids w).val.2.isSome = true := by
  induction ids generalizing w with
  | nil => simp [isTerminalClosableLoop] at h
  | cons s rest ih =>
    simp only [isTerminalClosableLoop, Cmd.bind_apply] at h ⊢
    cases hr : (executeCmd g [DbusPathSessions, DbusMethodIsSessionClosable, s]
      (getTitleOfSession g s w).world).val.2 with
    | some err => simp
    | none =>
      simp only [hr] at h ⊢
      split
      · rename_i hb
        simp only [hb, if_true] at h
        exact ih _ h
      · simp

theorem getAllTerminalIDs_ne_nil (w : σ) (ids : List String)
    (h : (getAllTerminalIDs g w).val = Except.ok ids) : ids ≠ [] := by
  simp only [getAllTerminalIDs, Cmd.bind_apply] at h
  cases hr : (executeCmd g [DbusPathSessions, DbusMethodTerminalIDList] w).val.2 with
  | some err => simp [hr] at h
  | none =>
    simp only [hr, Cmd.pure_apply, Except.ok.injEq] at h
    rw [← h]
    exact stringsSplit_ne_nil _ _

/-- Whatever the service answers, `ClearSession` never prints "Found NO open terminal":
the list `strings.Split` returns is never empty. -/
theorem ClearSession_never_reports_none (force : Bool) (w : σ) :
    Event.print Msg.foundNoOpenTerminal ∉ (ClearSession g force w).log := by
  have he := (getAllTerminalIDs_ordinary g (L := [DbusMethodTerminalIDList]) (by decide)
    w).no_found_none
  simp only [ClearSession, Cmd.bind_apply, List.mem_append, not_or]
  refine ⟨he, ?_⟩
  cases henum : (getAllTerminalIDs g w).val with
  | error err => simp
  | ok ids =>
    have hne := getAllTerminalIDs_ne_nil g w ids henum
    have hlen : ids.length ≠ 0 := by
      intro h0
      exact hne (List.length_eq_zero.mp h0)
    simp only
    rw [clearSessions_log]
    have ha := (activeSessionFor_ordinary g (L := queryMethods) (by decide) none
      (getAllTerminalIDs g w).world).no_found_none
    have hs := fun a w' => (stripActive_ordinary g (L := queryMethods) (by decide)
      a ids w').no_found_none
    have hp := fun st w' => (removalPasses_ordinary g force st w').no_found_none
    have hfound : foundMessage ids.length ≠ Msg.foundNoOpenTerminal := by
      unfold foundMessage
      rw [if_neg hlen]
      split <;> simp
    simp only [List.mem_append, List.mem_cons, Event.print.injEq, not_or]
    refine ⟨ha, Ne.symm hfound, ?_, hs _ _, hp _ _, ?_⟩
    · split <;> simp
    · split <;> simp

/-- The run-command calls of one replayed tab. -/
theorem loadTab_run_calls (toLower : String → String) (tab : TabDescription) (w : σ) :
    callsOf [DbusMethodRunCommandInTerminal] (loadTab g toLower tab w).log =
      if (startSession g toLower tab w).val.length = 0 then []
      else
        tab.Commands.flatMap (fun c =>
          (fetchedTerminalIDs g toLower tab w).map
            (fun t => [DbusPathSessions, DbusMethodRunCommandInTerminal, t, c])) ++
        (List.range 4).flatMap
          (fun k => slotCalls (tab.slot k) (fetchedTerminalIDs g toLower tab w)[k]?) := by
  have hs := (startSession_ordinary g toLower tab w).callsOf_eq_nil
    (K := [DbusMethodRunCommandInTerminal]) (by decide)
  have ht := fun a b w' => (executeCmdVoid_ordinary g (L := [DbusMethodSetTabTitle])
    DbusPathTabs DbusMethodSetTabTitle [a, b] (by decide) w').callsOf_eq_nil
    (K := [DbusMethodRunCommandInTerminal]) (by decide)
  have hf := fun s w' => (getTerminalIDsForSessionID_ordinary g
    (L := [DbusMethodTerminalIDListForSessionID]) (by decide) s w').callsOf_eq_nil
    (K := [DbusMethodRunCommandInTerminal]) (by decide)
  have hr := fun ids w' => (runTabCommands_ordinary g
    (L := [DbusMethodRunCommandInTerminal]) (by decide) tab ids w').callsOf_eq_calls
    (K := [DbusMethodRunCommandInTerminal]) (fun m hm => hm)
  have hfl := fun s w' => (applyTabFlags_ordinary g tab s w').callsOf_eq_nil
    (K := [DbusMethodRunCommandInTerminal]) (by decide)
  simp only [loadTab, Cmd.bind_apply, Cmd.ite_apply, Res.log_ite, Cmd.pure_apply,
    callsOf_append, hs, List.nil_append]
  split
  · rfl
  · simp only [setUpTab, Cmd.bind_apply, callsOf_append, ht, hf, hr, hfl, List.nil_append,
      List.append_nil, runTabCommands_calls, fetchedTerminalIDs, callsOf_nil]

/-- The run-command calls of the tab loop: those of its first iteration, then those of
the remaining iterations when the first did not fail. -/
theorem loadTabs_run_calls (toLower : String → String) (tab : TabDescription)
    (rest : List TabDescription) (w : σ) :
    callsOf [DbusMethodRunCommandInTerminal] (loadTabs g toLower (tab :: rest) w).log =
      callsOf [DbusMethodRunCommandInTerminal] (loadTab g toLower tab w).log ++
        (match (loadTab g toLower tab w).val with
          | some _ => []
          | none => callsOf [DbusMethodRunCommandInTerminal]
              (loadTabs g toLower rest (loadTab g toLower tab w).world).log) := by
  simp only [loadTabs, Cmd.bind_apply, callsOf_append]
  cases (loadTab g toLower tab w).val <;> simp

/-- The run-command calls of `LoadSession` are those of its tab loop. -/
theorem LoadSession_run_calls (toLower : String → String)
    (configuration : YakCtlConfiguration) (profileID : Int) (w : σ) :
    callsOf [DbusMethodRunCommandInTerminal]
        (LoadSession g toLower configuration profileID w).log =
      (match GetProfile configuration profileID with
        | Outcome.returned (Except.ok profile) =>
          (match (getAllTerminalIDs g (getCurrentSessionId g w).world).val with
            | Except.ok _ => callsOf [DbusMethodRunCommandInTerminal]
                (loadTabs g toLower profile.Tabs
                  (getAllTerminalIDs g (getCurrentSessionId g w).world).world).log
            | Except.error _ => [])
        | _ => []) := by
  have hc := (getCurrentSessionId_ordinary g (L := [DbusMethodActiveSessionId]) (by decide)
    w).callsOf_eq_nil (K := [DbusMethodRunCommandInTerminal]) (by decide)
  have he := (getAllTerminalIDs_ordinary g (L := [DbusMethodTerminalIDList]) (by decide)
    (getCurrentSessionId g w).world).callsOf_eq_nil (K := [DbusMethodRunCommandInTerminal])
    (by decide)
  cases hp : GetProfile configuration profileID with
  | panicked msg => simp [LoadSession, hp]
  | returned r =>
    cases r with
    | error err => simp [LoadSession, hp]
    | ok profile =>
      simp only [LoadSession, hp, Cmd.bind_apply, Cmd.pure_apply, List.append_nil]
      cases henum : (getAllTerminalIDs g (getCurrentSessionId g w).world).val with
      | error err =>
        rw [(loadProfile_enum_error g toLower profile w err henum).1]
        simp [hc, he]
      | ok ids =>
        cases htabs : (loadTabs g toLower profile.Tabs
            (getAllTerminalIDs g (getCurrentSessionId g w).world).world).val with
        | some err =>
          rw [(loadProfile_tab_error g toLower profile w ids err henum htabs).1]
          simp [hc, he]
        | none =>
          obtain ⟨win, w', hwin, hlog, _⟩ := loadProfile_ok g toLower profile w ids henum htabs
          rw [hlog]
          simp only [callsOf_append, hc, he, hwin.callsOf_eq_nil
            (K := [DbusMethodRunCommandInTerminal]) (by decide), List.nil_append]
          split
          · rw [clearSessions_callsOf g (by decide)]
            simp
          · simp

@[simp] theorem messages_nil : messages [] = [] := rfl

@[simp] theorem messages_append (l₁ l₂ : List Event) :
    messages (l₁ ++ l₂) = messages l₁ ++ messages l₂ := by
  simp [messages, List.filterMap_append]

@[simp] theorem messages_cons_print (m : Msg) (l : List Event) :
    messages (Event.print m :: l) = m :: messages l := by
  simp [messages, List.filterMap_cons]

@[simp] theorem messages_cons_call (args : List String) (r : Reply) (l : List Event) :
    messages (Event.call args r :: l) = messages l := by
  simp [messages, List.filterMap_cons]

@[simp] theorem listingLines_append (l₁ l₂ : List Event) :
    listingLines (l₁ ++ l₂) = listingLines l₁ ++ listingLines l₂ := by
  simp [listingLines]

@[simp] theorem sessionLineIDs_append (l₁ l₂ : List Event) :
    sessionLineIDs (l₁ ++ l₂) = sessionLineIDs l₁ ++ sessionLineIDs l₂ := by
  simp [sessionLineIDs, List.filterMap_append]

/-- The messages `executeCmd` prints: at most the error of the invocation. -/
theorem executeCmd_messages (args : List String) (w : σ) :
    messages (executeCmd g args w).log =
      (match (g w args).1 with
        | Reply.fail err => [Msg.execError err]
        | Reply.ok _ => []) := by
  rw [executeCmd_log]
  cases (g w args).1 <;> simp

theorem executeCmd_listingLines (args : List String) (w : σ) :
    listingLines (executeCmd g args w).log = [] := by
  simp only [listingLines, executeCmd_messages]
  cases (g w args).1 <;> simp

theorem executeCmd_sessionLineIDs (args : List String) (w : σ) :
    sessionLineIDs (executeCmd g args w).log = [] := by
  simp only [sessionLineIDs, executeCmd_messages]
  cases (g w args).1 <;> simp

theorem terminalLines_sessionLineIDs (ids : List String) (w : σ) :
    sessionLineIDs (Cmd.forEach ids (fun terminalID =>
      (Cmd.emit (Event.print (Msg.terminalLine terminalID)) : Cmd σ Unit)) w).log = [] := by
  induction ids generalizing w with
  | nil => simp [Cmd.forEach, sessionLineIDs]
  | cons t rest ih =>
    simp only [Cmd.forEach, Cmd.andThen, sessionLineIDs_append, ih]
    simp [sessionLineIDs]

/-- One iteration of the listing prints exactly one session line, for its session id. -/
theorem showSession_sessionLineIDs (sessionID : String) (w : σ) :
    sessionLineIDs (showSession g sessionID w).log = [sessionID] := by
  simp only [showSession, getTitleOfSession, getTerminalIDsForSessionID, Cmd.bind_apply,
    Cmd.pure_apply, Cmd.emit_apply, sessionLineIDs_append, executeCmd_sessionLineIDs,
    terminalLines_sessionLineIDs, List.append_nil, List.nil_append]
  simp [sessionLineIDs]

theorem showSessions_sessionLineIDs (ids : List String) (w : σ) :
    sessionLineIDs (Cmd.forEach ids (showSession g) w).log = ids := by
  induction ids generalizing w with
  | nil => simp [Cmd.forEach, sessionLineIDs]
  | cons s rest ih =>
    simp only [Cmd.forEach, Cmd.andThen, sessionLineIDs_append, ih,
      showSession_sessionLineIDs]
    rfl

theorem getAllSessionIDs_listingLines (w : σ) :
    listingLines (getAllSessionIDs g w).log = [] := by
  simp only [getAllSessionIDs, Cmd.bind_apply, listingLines_append, executeCmd_listingLines,
    List.nil_append]
  cases (executeCmd g [DbusPathSessions, DbusMethodSessionIDList] w).val.2 <;>
    simp [listingLines]

theorem getAllSessionIDs_sessionLineIDs (w : σ) :
    sessionLineIDs (getAllSessionIDs g w).log = [] := by
  simp only [getAllSessionIDs, Cmd.bind_apply, sessionLineIDs_append,
    executeCmd_sessionLineIDs, List.nil_append]
  cases (executeCmd g [DbusPathSessions, DbusMethodSessionIDList] w).val.2 <;>
    simp [sessionLineIDs]

/-- The listing of `ShowStatus`: nothing when the enumeration of the session ids fails,
otherwise one session line per enumerated id, in order. -/
theorem ShowStatus_listing (w : σ) :
    match (getAllSessionIDs g w).val with
    | Except.error _ => listingLines (ShowStatus g w).log = []
    | Except.ok sessionIDs => sessionLineIDs (ShowStatus g w).log = sessionIDs := by
  cases h : (getAllSessionIDs g w).val with
  | error err =>
    simp only [ShowStatus, h, Cmd.bind_apply, Cmd.emit_apply, listingLines_append,
      getAllSessionIDs_listingLines, List.nil_append]
    simp [listingLines]
  | ok ids =>
    simp [ShowStatus, h, getAllSessionIDs_sessionLineIDs, showSessions_sessionLineIDs]

theorem terminalLines_listingLines (ids : List String) (w : σ) :
    listingLines (Cmd.forEach ids (fun terminalID =>
      (Cmd.emit (Event.print (Msg.terminalLine terminalID)) : Cmd σ Unit)) w).log =
      ids.map Msg.terminalLine := by
  induction ids generalizing w with
  | nil => simp [Cmd.forEach, listingLines]
  | cons t rest ih =>
    simp only [Cmd.forEach, Cmd.andThen, listingLines_append, ih, List.map_cons]
    simp [listingLines]

/-- The lines of one session block: the session line with whatever title the query gave,
then one terminal line per fetched terminal id. -/
theorem showSession_listingLines (sessionID : String) (w : σ) :
    listingLines (showSession g sessionID w).log =
      Msg.sessionLine sessionID (getTitleOfSession g sessionID w).val ::
        (getTerminalIDsForSessionID g sessionID (getTitleOfSession g sessionID w).world).val.map
          Msg.terminalLine := by
  simp only [showSession, Cmd.bind_apply, Cmd.emit_apply, listingLines_append,
    terminalLines_listingLines]
  simp only [getTitleOfSession, getTerminalIDsForSessionID, Cmd.bind_apply, Cmd.pure_apply,
    listingLines_append, executeCmd_listingLines, List.append_nil, List.nil_append]
  simp [listingLines]

theorem getAllTerminalIDs_calls (w : σ) :
    calls (getAllTerminalIDs g w).log = [[DbusPathSessions, DbusMethodTerminalIDList]] := by
  simp only [getAllTerminalIDs, Cmd.bind_apply, calls_append, executeCmd_calls]
  cases (executeCmd g [DbusPathSessions, DbusMethodTerminalIDList] w).val.2 <;> simp

/-- The fan-out loop of `ExecuteCommand`: one run-command call per terminal id, in order. -/
theorem fanOut_calls (command : String) (ids : List String) (w : σ) :
    calls (Cmd.forEach ids (fun tID => executeCommandInTerminal g command tID) w).log =
      ids.map (fun t => [DbusPathSessions, DbusMethodRunCommandInTerminal, t, command]) := by
  rw [forEach_calls ids _
    (fun t => [[DbusPathSessions, DbusMethodRunCommandInTerminal, t, command]])
    (fun t w' => executeCommandInTerminal_calls g command t w')]
  induction ids with
  | nil => rfl
  | cons t rest ih => simp [List.flatMap_cons, ih]

/-- Iterations of the stripping loop that meet no terminal of the protected session
leave the loop variables as they are. -/
theorem stripLoop_no_match (owner : String → String) (active : String)
    (hown : ∀ w t, (getSessionIDForTerminalID g t w).val = owner t)
    (fuel i : Nat) (st : StripState) (w : σ)
    (h : ∀ j, i ≤ j → j < i + fuel → owner (st.arr.getD j "") ≠ active) :
    (stripLoop g active fuel i st w).val = st := by
  induction fuel generalizing i w with
  | zero => simp [stripLoop]
  | succ n ih =>
    simp only [stripLoop, Cmd.bind_apply, Cmd.ite_apply, Res.val_ite, hown]
    rw [if_neg (h i (Nat.le_refl _) (by omega))]
    exact ih (i + 1) _ (fun j hj hlt => h j (by omega) (by omega))

theorem mem_drop_of_le {x : String} {l : List String} {k m : Nat} (hx : x ∈ l.drop k)
    (hle : m ≤ k) : x ∈ l.drop m := by
  have hk : l.drop k = (l.drop m).drop (k - m) := by
    rw [List.drop_drop]
    congr 1
    omega
  rw [hk] at hx
  exact List.mem_of_mem_drop hx

/-- After the in-place removal at `i`, the cells behind `i` hold candidates that stood
behind `i` before. -/
theorem appendInPlace_getD (arr : List String) (i j : Nat) (hij : i < j)
    (hj : j < arr.length) : (appendInPlace arr i).getD j "" ∈ arr.drop (i + 1) := by
  have hlen := appendInPlace_length arr i (by omega)
  have hlt : j < (appendInPlace arr i).length := by omega
  rw [List.getD_eq_getElem _ _ hlt]
  have hmem : (appendInPlace arr i)[j] ∈
      arr.drop (i + 1) ++ arr.drop (arr.length - 1) := by
    simp only [appendInPlace, List.append_assoc]
    rw [List.getElem_append_right (by simp; omega)]
    exact List.getElem_mem _
  rcases List.mem_append.mp hmem with h | h
  · exact h
  · exact mem_drop_of_le h (by omega)

theorem appendInPlace_take (arr : List String) (i : Nat) (hi : i < arr.length) :
    (appendInPlace arr i).take (arr.length - 1) = arr.take i ++ arr.drop (i + 1) := by
  unfold appendInPlace
  apply List.take_left'
  simp only [List.length_append, List.length_take, List.length_drop]
  omega

theorem filter_at (p : String → Bool) (l : List String) (i : Nat) (hi : i < l.length) :
    l.filter p = (l.take i).filter p ++
      (if p l[i] = true then l[i] :: (l.drop (i + 1)).filter p
        else (l.drop (i + 1)).filter p) := by
  have hsplit : l = l.take i ++ l[i] :: l.drop (i + 1) := by
    rw [List.getElem_cons_drop, List.take_append_drop]
  have h := congrArg (List.filter p) hsplit
  rw [List.filter_append, List.filter_cons] at h
  exact h

/-- The stripping loop from index `i` on, when no candidate before `i` belongs to the
protected session and at most one candidate does: the immediate list is the candidates of
other sessions, the postponed list the candidates of the protected session, both in their
original order, and the second pass is due exactly when something was postponed. -/
theorem stripLoop_single (owner : String → String) (active : String)
    (hown : ∀ w t, (getSessionIDForTerminalID g t w).val = owner t)
    (ids : List String)
    (hone : (ids.filter (fun t => owner t = active)).length ≤ 1)
    (fuel i : Nat) (w : σ) (hlen : i + fuel = ids.length)
    (hpre : ∀ x ∈ ids.take i, owner x ≠ active) :
    (stripLoop g active fuel i
        { arr := ids, cleanedLen := ids.length, isCurrentTerminalPostponed := false,
          postponedTerminalIDs := [] } w).val.cleanedUpTerminalIDList =
        ids.filter (fun t => owner t ≠ active) ∧
      (stripLoop g active fuel i
        { arr := ids, cleanedLen := ids.length, isCurrentTerminalPostponed := false,
          postponedTerminalIDs := [] } w).val.postponedTerminalIDs =
        ids.filter (fun t => owner t = active) ∧
      (stripLoop g active fuel i
        { arr := ids, cleanedLen := ids.length, isCurrentTerminalPostponed := false,
          postponedTerminalIDs := [] } w).val.isCurrentTerminalPostponed =
        !(ids.filter (fun t => owner t = active)).isEmpty := by
  induction fuel generalizing i w with
  | zero =>
    have hi : i = ids.length := by omega
    subst hi
    rw [List.take_length] at hpre
    have hq : ids.filter (fun t => owner t ≠ active) = ids :=
      List.filter_eq_self.mpr (fun x hx => by simpa using hpre x hx)
    have hp : ids.filter (fun t => owner t = active) = [] :=
      List.filter_eq_nil_iff.mpr (fun x hx => by simpa using hpre x hx)
    refine ⟨?_, ?_, ?_⟩
    · simp only [stripLoop, Cmd.pure_apply, StripState.cleanedUpTerminalIDList,
        List.take_length]
      exact hq.symm
    · simp only [stripLoop, Cmd.pure_apply]
      exact hp.symm
    · simp only [stripLoop, Cmd.pure_apply]
      rw [hp]
      rfl
  | succ n ih =>
    have hi : i < ids.length := by omega
    have hget : ids.getD i "" = ids[i] := List.getD_eq_getElem _ _ hi
    simp only [stripLoop, Cmd.bind_apply, Cmd.ite_apply, Res.val_ite, hown, hget]
    by_cases hm : owner ids[i] = active
    · simp only [hm, if_true]
      have hpfilter := filter_at (fun t => decide (owner t = active)) ids i hi
      rw [if_pos (decide_eq_true hm)] at hpfilter
      have hqfilter := filter_at (fun t => decide (owner t ≠ active)) ids i hi
      rw [if_neg (by simpa using hm)] at hqfilter
      have hpre' : (ids.take i).filter (fun t => owner t = active) = [] :=
        List.filter_eq_nil_iff.mpr (fun x hx => by simpa using hpre x hx)
      have hpost : (ids.drop (i + 1)).filter (fun t => owner t = active) = [] := by
        rw [hpfilter, hpre'] at hone
        simp only [List.nil_append, List.length_cons] at hone
        exact List.length_eq_zero.mp (by omega)
      have hpost' : ∀ x ∈ ids.drop (i + 1), owner x ≠ active := by
        intro x hx
        have := (List.filter_eq_nil_iff.mp hpost) x hx
        simpa using this
      have h1 : (ids.take i).filter (fun t => owner t ≠ active) = ids.take i :=
        List.filter_eq_self.mpr (fun x hx => by simpa using hpre x hx)
      have h2 : (ids.drop (i + 1)).filter (fun t => owner t ≠ active) = ids.drop (i + 1) :=
        List.filter_eq_self.mpr (fun x hx => by simpa using hpost' x hx)
      rw [stripLoop_no_match g owner active hown n (i + 1) _ _
        (fun j hj hlt => hpost' _ (appendInPlace_getD ids i j (by omega) (by omega)))]
      refine ⟨?_, ?_, ?_⟩
      · simp only [StripState.cleanedUpTerminalIDList]
        rw [appendInPlace_take ids i hi, hqfilter, h1, h2]
      · simp only
        rw [hpfilter, hpre', hpost]
      · simp only
        rw [hpfilter, hpre', hpost]
        rfl
    · simp only [hm, if_false]
      apply ih (i + 1) _ (by omega)
      intro x hx
      rw [List.take_succ, List.mem_append] at hx
      rcases hx with hx | hx
      · exact hpre x hx
      · rw [List.getElem?_eq_getElem hi] at hx
        simp only [Option.toList_some, List.mem_singleton] at hx
        rw [hx]
        exact hm

theorem singleActiveGateway_owner (w : Unit) (t : String) :
    (getSessionIDForTerminalID singleActiveGateway t w).val = if t = "2" then "a" else "b" := by
  have ha : stringsTrim "a" '\n' = "a" := by decide
  have hb : stringsTrim "b" '\n' = "b" := by decide
  by_cases h : t = "2"
  · simp [getSessionIDForTerminalID, executeCmd, singleActiveGateway, h, ha]
  · simp [getSessionIDForTerminalID, executeCmd, singleActiveGateway, h, hb]

theorem removalPasses_single (force : Bool) (st : StripState) (w : σ)
    (hflag : st.isCurrentTerminalPostponed = !st.postponedTerminalIDs.isEmpty) :
    removalPasses g force st w =
      processTerminalRemoval g force
        (st.cleanedUpTerminalIDList ++ st.postponedTerminalIDs) false w := by
  rw [processTerminalRemoval_append]
  simp only [removalPasses, Cmd.bind_apply, Cmd.ite_apply, hflag]
  cases hp : st.postponedTerminalIDs with
  | nil => simp [processTerminalRemoval]
  | cons t rest => simp

/-! ### The replies of the service behind the values of the helpers -/

theorem executeCmd_world (args : List String) (w : σ) :
    (executeCmd g args w).world = (g w args).2 := by
  unfold executeCmd
  rcases hg : g w args with ⟨r, w1⟩
  cases r <;> rfl

theorem executeCmd_text (args : List String) (w : σ) :
    (executeCmd g args w).val.1 = (g w args).1.text := by
  unfold executeCmd
  rcases hg : g w args with ⟨r, w1⟩
  cases r <;> rfl

theorem executeCmd_err (args : List String) (w : σ) :
    (executeCmd g args w).val.2 =
      (match (g w args).1 with
        | Reply.fail err => some err
        | Reply.ok _ => none) := by
  unfold executeCmd
  rcases hg : g w args with ⟨r, w1⟩
  cases r <;> rfl

theorem getSessionIDForTerminalID_text (t : String) (w : σ) :
    (getSessionIDForTerminalID g t w).val =
      (g w [DbusPathSessions, DbusMethodSessionIDForTerminalID, t]).1.text := by
  simp only [getSessionIDForTerminalID, Cmd.bind_apply, executeCmd_err, executeCmd_text]
  cases (g w [DbusPathSessions, DbusMethodSessionIDForTerminalID, t]).1 <;> simp [Reply.text]

theorem getSessionIDForTerminalID_world (t : String) (w : σ) :
    (getSessionIDForTerminalID g t w).world =
      (g w [DbusPathSessions, DbusMethodSessionIDForTerminalID, t]).2 := by
  simp only [getSessionIDForTerminalID, Cmd.bind_apply, executeCmd_err, executeCmd_world]
  cases (g w [DbusPathSessions, DbusMethodSessionIDForTerminalID, t]).1 <;> simp

theorem getTitleOfSession_text (s : String) (w : σ) :
    (getTitleOfSession g s w).val = (g w [DbusPathTabs, DbusMethodTabTitle, s]).1.text := by
  simp [getTitleOfSession, executeCmd_text]

theorem getTitleOfSession_world (s : String) (w : σ) :
    (getTitleOfSession g s w).world = (g w [DbusPathTabs, DbusMethodTabTitle, s]).2 := by
  simp [getTitleOfSession, executeCmd_world]

theorem getTerminalIDsForSessionID_text (s : String) (w : σ) :
    (getTerminalIDsForSessionID g s w).val =
      stringsSplit (g w [DbusPathSessions, DbusMethodTerminalIDListForSessionID, s]).1.text
        ',' := by
  simp [getTerminalIDsForSessionID, executeCmd_text]

theorem getTerminalIDsForSessionID_world (s : String) (w : σ) :
    (getTerminalIDsForSessionID g s w).world =
      (g w [DbusPathSessions, DbusMethodTerminalIDListForSessionID, s]).2 := by
  simp [getTerminalIDsForSessionID, executeCmd_world]

theorem refusedIn_append (l₁ l₂ : List Event) :
    refusedIn (l₁ ++ l₂) ↔ refusedIn l₁ ∨ refusedIn l₂ := by
  simp only [refusedIn, List.mem_append]
  constructor
  · rintro ⟨s, r, h | h, hr⟩
    · exact Or.inl ⟨s, r, h, hr⟩
    · exact Or.inr ⟨s, r, h, hr⟩
  · rintro (⟨s, r, h, hr⟩ | ⟨s, r, h, hr⟩)
    · exact ⟨s, r, Or.inl h, hr⟩
    · exact ⟨s, r, Or.inr h, hr⟩

theorem Ordinary.not_refusedIn {L : List String} {l : List Event} (h : Ordinary L l)
    (hnot : DbusMethodIsSessionClosable ∉ L) : ¬ refusedIn l := by
  rintro ⟨s, r, hmem, _⟩
  exact h.no_call (a := [DbusPathSessions, DbusMethodIsSessionClosable, s])
    (m := DbusMethodIsSessionClosable) rfl hnot hmem

@[simp] theorem refusedIn_nil : ¬ refusedIn [] := by
  simp [refusedIn]

@[simp] theorem refusedIn_cons_print (m : Msg) (l : List Event) :
    refusedIn (Event.print m :: l) ↔ refusedIn l := by
  simp [refusedIn]

/-- The closability query of one session: refused exactly when the reply does not report
the session closable. -/
theorem refusedIn_executeCmd (sid : String) (w : σ) :
    refusedIn (executeCmd g [DbusPathSessions, DbusMethodIsSessionClosable, sid] w).log ↔
      ¬ (g w [DbusPathSessions, DbusMethodIsSessionClosable, sid]).1.reportsClosable := by
  rw [executeCmd_log]
  constructor
  · rintro ⟨s, r, hmem, hr⟩
    simp only [List.mem_cons, Event.call.injEq] at hmem
    rcases hmem with ⟨hs, hrr⟩ | hmem
    · rw [← hrr]
      exact hr
    · cases hrep : (g w [DbusPathSessions, DbusMethodIsSessionClosable, sid]).1 with
      | ok out => simp [hrep] at hmem
      | fail err => simp [hrep] at hmem
  · intro h
    exact ⟨sid, _, List.mem_cons_self _ _, h⟩

/-- The verdict of the closability loop is "not closable" exactly when one of its
closability queries was refused: answered by a failure, by a false boolean or by text that
is no boolean. -/
theorem isTerminalClosableLoop_verdict (ids : List String) (w : σ) :
    (isTerminalClosableLoop g ids w).val.1 = false ↔
      refusedIn (isTerminalClosableLoop g ids w).log := by
  induction ids generalizing w with
  | nil => simp [isTerminalClosableLoop]
  | cons s rest ih =>
    have ht : ¬ refusedIn (getTitleOfSession g s w).log :=
      (getTitleOfSession_ordinary g (L := [DbusMethodTabTitle]) (by decide)
        s w).not_refusedIn (by decide)
    have hq := refusedIn_executeCmd g s (getTitleOfSession g s w).world
    have herr := executeCmd_err g [DbusPathSessions, DbusMethodIsSessionClosable, s]
      (getTitleOfSession g s w).world
    have htxt := executeCmd_text g [DbusPathSessions, DbusMethodIsSessionClosable, s]
      (getTitleOfSession g s w).world
    simp only [isTerminalClosableLoop, Cmd.bind_apply, refusedIn_append, ht, false_or, hq]
    cases hrep : (g (getTitleOfSession g s w).world
        [DbusPathSessions, DbusMethodIsSessionClosable, s]).1 with
    | fail err =>
      rw [hrep] at herr
      simp [herr, Reply.reportsClosable]
    | ok out =>
      rw [hrep] at herr htxt
      simp only [herr, htxt, Reply.text, Reply.reportsClosable]
      cases hparse : strconvParseBool (stringsTrim out '\n') with
      | none => simp
      | some b =>
        cases b
        · simp
        · simp [ih]

theorem isTerminalClosable_verdict (t : String) (w : σ) :
    (isTerminalClosable g t w).val.1 = false ↔ refusedIn (isTerminalClosable g t w).log := by
  have hs : ¬ refusedIn (getSessionIDForTerminalID g t w).log :=
    (getSessionIDForTerminalID_ordinary g (L := [DbusMethodSessionIDForTerminalID])
      (by decide) t w).not_refusedIn (by decide)
  simp only [isTerminalClosable, Cmd.bind_apply, refusedIn_append, hs, false_or]
  exact isTerminalClosableLoop_verdict g _ _

/-- The closability queries of the loop are about the session ids it was given. -/
theorem isTerminalClosableLoop_queried (ids : List String) (w : σ) (sid : String) (r : Reply)
    (h : Event.call [DbusPathSessions, DbusMethodIsSessionClosable, sid] r ∈
      (isTerminalClosableLoop g ids w).log) : sid ∈ ids := by
  induction ids generalizing w with
  | nil => simp [isTerminalClosableLoop] at h
  | cons s rest ih =>
    have ht : Event.call [DbusPathSessions, DbusMethodIsSessionClosable, sid] r ∉
        (getTitleOfSession g s w).log :=
      (getTitleOfSession_ordinary g (L := [DbusMethodTabTitle]) (by decide) s w).no_call
        (m := DbusMethodIsSessionClosable) rfl (by decide)
    simp only [isTerminalClosableLoop, Cmd.bind_apply, List.mem_append, ht, false_or] at h
    rcases h with h | h
    · rw [executeCmd_log] at h
      simp only [List.mem_cons, Event.call.injEq, List.cons.injEq] at h
      rcases h with ⟨⟨_, _, hs, _⟩, _⟩ | h
      · rw [hs]
        exact List.mem_cons_self _ _
      · cases hrep : (g (getTitleOfSession g s w).world
            [DbusPathSessions, DbusMethodIsSessionClosable, s]).1 with
        | ok out => simp [hrep] at h
        | fail err => simp [hrep] at h
    · cases herr : (executeCmd g [DbusPathSessions, DbusMethodIsSessionClosable, s]
          (getTitleOfSession g s w).world).val.2 with
      | some err => simp [herr] at h
      | none =>
        simp only [herr] at h
        split at h
        · exact List.mem_cons_of_mem _ (ih _ h)
        · simp at h

/-- The closability queries of `isTerminalClosable` are about the session ids in the
reply to its owning-session query. -/
theorem isTerminalClosable_queried (t : String) (w : σ) (sid : String) (r : Reply)
    (h : Event.call [DbusPathSessions, DbusMethodIsSessionClosable, sid] r ∈
      (isTerminalClosable g t w).log) :
    sid ∈ stringsSplit (g w [DbusPathSessions, DbusMethodSessionIDForTerminalID, t]).1.text
      ',' := by
  have hs : Event.call [DbusPathSessions, DbusMethodIsSessionClosable, sid] r ∉
      (getSessionIDForTerminalID g t w).log :=
    (getSessionIDForTerminalID_ordinary g (L := [DbusMethodSessionIDForTerminalID])
      (by decide) t w).no_call (m := DbusMethodIsSessionClosable) rfl (by decide)
  simp only [isTerminalClosable, Cmd.bind_apply, List.mem_append, hs, false_or] at h
  rw [← getSessionIDForTerminalID_text]
  exact isTerminalClosableLoop_queried g _ _ sid r h

/-- The gateway calls of one forced iteration, in order, in terms of the reply to the
owning-session query of the iteration. -/
theorem step_forced_reply (t : String) (d : Bool) (w : σ) :
    calls (processTerminalRemovalStep g true t d w).log =
      calls (isTerminalClosable g t w).log ++
        [DbusPathSessions, DbusMethodSessionIDForTerminalID, t] ::
          ((stringsSplit (g (isTerminalClosable g t w).world
              [DbusPathSessions, DbusMethodSessionIDForTerminalID, t]).1.text ',').map
              (fun id => [DbusPathSessions, DbusMethodSetSessionClosable, id, "true"]) ++
            [[DbusPathTabs, DbusMethodTabTitle,
                (g (isTerminalClosable g t w).world
                  [DbusPathSessions, DbusMethodSessionIDForTerminalID, t]).1.text],
              [DbusPathSessions, DbusMethodTerminalRemoval, t]]) := by
  rw [step_forced_calls, getSessionIDForTerminalID_text]

theorem getAllTerminalIDs_reply (w : σ) :
    (getAllTerminalIDs g w).val =
      (match (g w [DbusPathSessions, DbusMethodTerminalIDList]).1 with
        | Reply.ok out => Except.ok (stringsSplit (stringsTrim out '\n') ',')
        | Reply.fail err => Except.error err) := by
  simp only [getAllTerminalIDs, Cmd.bind_apply, executeCmd_err, executeCmd_text]
  cases (g w [DbusPathSessions, DbusMethodTerminalIDList]).1 <;> simp [Reply.text]

theorem getAllSessionIDs_reply (w : σ) :
    (getAllSessionIDs g w).val =
      (match (g w [DbusPathSessions, DbusMethodSessionIDList]).1 with
        | Reply.ok out => Except.ok (stringsSplit (stringsTrim out '\n') ',')
        | Reply.fail err => Except.error err) := by
  simp only [getAllSessionIDs, Cmd.bind_apply, executeCmd_err, executeCmd_text]
  cases (g w [DbusPathSessions, DbusMethodSessionIDList]).1 <;> simp [Reply.text]

theorem getAllSessionIDs_world (w : σ) :
    (getAllSessionIDs g w).world = (g w [DbusPathSessions, DbusMethodSessionIDList]).2 := by
  simp only [getAllSessionIDs, Cmd.bind_apply, executeCmd_err, executeCmd_world]
  cases (g w [DbusPathSessions, DbusMethodSessionIDList]).1 <;> simp

theorem terminalLines_world (ids : List String) (w : σ) :
    (Cmd.forEach ids (fun terminalID =>
      (Cmd.emit (Event.print (Msg.terminalLine terminalID)) : Cmd σ Unit)) w).world = w := by
  induction ids generalizing w with
  | nil => simp [Cmd.forEach]
  | cons t rest ih => simp [Cmd.forEach, Cmd.andThen, ih]

theorem showSession_world (sessionID : String) (w : σ) :
    (showSession g sessionID w).world =
      (g (g w [DbusPathTabs, DbusMethodTabTitle, sessionID]).2
        [DbusPathSessions, DbusMethodTerminalIDListForSessionID, sessionID]).2 := by
  simp only [showSession, Cmd.bind_apply, Cmd.emit_apply, terminalLines_world,
    getTerminalIDsForSessionID_world, getTitleOfSession_world]

/-- The lines of the loop of `ShowStatus` are the listing the replies call for. -/
theorem showSessions_listingLines (ids : List String) (w : σ) :
    listingLines (Cmd.forEach ids (showSession g) w).log = listingOf g ids w := by
  induction ids generalizing w with
  | nil => simp [Cmd.forEach, listingLines, listingOf, messages]
  | cons s rest ih =>
    simp only [Cmd.forEach, Cmd.andThen, listingLines_append, ih, showSession_listingLines,
      showSession_world, listingOf, getTitleOfSession_text, getTitleOfSession_world,
      getTerminalIDsForSessionID_text, List.cons_append]

/-- The run-command calls of `LoadSession` are those of its tab loop, iteration after
iteration, and one replayed tab issues these: none when the session could not be created;
otherwise the shared commands on every fetched terminal, then for every slot `k` of the
four the slot's commands against the terminal at position `k` of the fetched list when the
list has such a position, and nothing for the slot when it has not.  The fetched list is
never empty. -/
theorem loadTab_slot_commands (toLower : String → String) (tab : TabDescription)
    (rest : List TabDescription) (configuration : YakCtlConfiguration) (profileID : Int)
    (w w₀ : σ) :
    callsOf [DbusMethodRunCommandInTerminal] (loadTab g toLower tab w).log =
      (if (startSession g toLower tab w).val.length = 0 then []
      else
        tab.Commands.flatMap (fun c =>
          (fetchedTerminalIDs g toLower tab w).map
            (fun t => [DbusPathSessions, DbusMethodRunCommandInTerminal, t, c])) ++
        (List.range 4).flatMap
          (fun k => slotCalls (tab.slot k) (fetchedTerminalIDs g toLower tab w)[k]?)) ∧
    fetchedTerminalIDs g toLower tab w ≠ [] ∧
    callsOf [DbusMethodRunCommandInTerminal] (loadTabs g toLower (tab :: rest) w).log =
      callsOf [DbusMethodRunCommandInTerminal] (loadTab g toLower tab w).log ++
        (match (loadTab g toLower tab w).val with
          | some _ => []
          | none => callsOf [DbusMethodRunCommandInTerminal]
              (loadTabs g toLower rest (loadTab g toLower tab w).world).log) ∧
    callsOf [DbusMethodRunCommandInTerminal]
        (LoadSession g toLower configuration profileID w₀).log =
      (match GetProfile configuration profileID with
        | Outcome.returned (Except.ok profile) =>
          (match (getAllTerminalIDs g (getCurrentSessionId g w₀).world).val with
            | Except.ok _ => callsOf [DbusMethodRunCommandInTerminal]
                (loadTabs g toLower profile.Tabs
                  (getAllTerminalIDs g (getCurrentSessionId g w₀).world).world).log
            | Except.error _ => [])
        | _ => []) :=
  ⟨loadTab_run_calls g toLower tab w,
    by
      rw [fetchedTerminalIDs, getTerminalIDsForSessionID_text]
      exact stringsSplit_ne_nil _ _,
    loadTabs_run_calls g toLower tab rest w,
    LoadSession_run_calls g toLower configuration profileID w₀⟩

/-- The calls of `ExecuteCommand` in terms of the reply of the service: with an empty
explicit list, the enumeration call and then one run-command call per comma-separated
field of the reply, in order, and no run-command call when the enumeration fails; with a
non-empty explicit list, one run-command call per listed id, in list order, and nothing
else. -/
theorem ExecuteCommand_fans_out (command tID : String) (rest : List String) (w : σ) :
    calls (ExecuteCommand g command [] w).log =
      [DbusPathSessions, DbusMethodTerminalIDList] ::
        (match (g w [DbusPathSessions, DbusMethodTerminalIDList]).1 with
          | Reply.ok out => (stringsSplit (stringsTrim out '\n') ',').map
              (fun t => [DbusPathSessions, DbusMethodRunCommandInTerminal, t, command])
          | Reply.fail _ => []) ∧
    calls (ExecuteCommand g command (tID :: rest) w).log =
      (tID :: rest).map
        (fun t => [DbusPathSessions, DbusMethodRunCommandInTerminal, t, command]) := by
  constructor
  · have hval := getAllTerminalIDs_reply g w
    simp only [ExecuteCommand, List.length_nil, if_true, Cmd.bind_apply, calls_append,
      getAllTerminalIDs_calls]
    cases hrep : (g w [DbusPathSessions, DbusMethodTerminalIDList]).1 with
    | fail err =>
      rw [hrep] at hval
      simp [hval]
    | ok out =>
      rw [hrep] at hval
      simp [hval, fanOut_calls]
  · simp [ExecuteCommand, fanOut_calls]

end Lemmas

/-! ## The claims -/

section Claims

variable {σ : Type} (g : Gateway σ)

/-- C1, evaluated: with terminals `1` and `2` in the protected session `a` and terminal `3`
in session `b`, clearing the candidates `[1, 2, 3]` closes terminal `2` of the protected
session before terminal `3` is processed; only terminal `1` is postponed. -/
theorem clearSessions_closes_protected_early :
    (getSessionIDForTerminalID splitSessionGateway "2" ()).val = "a" ∧
    (getSessionIDForTerminalID splitSessionGateway "3" ()).val = "b" ∧
    removalTargets (clearSessions splitSessionGateway true ["1", "2", "3"] (some "a") ()).log
      = ["2", "3", "1"] := by
  decide

/-- C2, evaluated: with terminals `1` and `2` in the protected session `a`, the stripping
loop over `[1, 2, 3]` postpones only `1` and leaves `2` in the immediate list, and over
`[1, 3, 2]` it leaves `2` in the immediate list and postpones it twice more. -/
theorem stripActive_not_a_partition :
    (stripActive splitSessionGateway "a" ["1", "2", "3"] ()).val.cleanedUpTerminalIDList
      = ["2", "3"] ∧
    (stripActive splitSessionGateway "a" ["1", "2", "3"] ()).val.postponedTerminalIDs = ["1"] ∧
    (stripActive splitSessionGateway "a" ["1", "3", "2"] ()).val.cleanedUpTerminalIDList
      = ["3", "2"] ∧
    (stripActive splitSessionGateway "a" ["1", "3", "2"] ()).val.postponedTerminalIDs
      = ["1", "2", "2"] := by
  decide

/-- C3: in a pass with `force = false`, wherever the terminal stands in the list,
`isTerminalClosable` reports it non-closable exactly when one of its closability queries
was not answered "closable"; the iteration for the terminal then issues no
`removeTerminal` call, in particular when a closability query failed and when it returned
text that is not the boolean true; and the `removeTerminal` calls of `clearSessions` are
those of its two passes. -/
theorem unforced_clearing_skips_non_closable (pre post : List String) (tID : String)
    (d : Bool) (w : σ) (ids : List String) (last : Option String) (w₀ : σ) :
    ((isTerminalClosable g tID (processTerminalRemoval g false pre d w).world).val.1 = false ↔
      ∃ sid r,
        Event.call [DbusPathSessions, DbusMethodIsSessionClosable, sid] r ∈
          (isTerminalClosable g tID (processTerminalRemoval g false pre d w).world).log ∧
        ¬ r.reportsClosable) ∧
    (∀ sid err,
      Event.call [DbusPathSessions, DbusMethodIsSessionClosable, sid] (Reply.fail err) ∈
        (isTerminalClosable g tID (processTerminalRemoval g false pre d w).world).log →
      removeCalls (processTerminalRemovalStep g false tID
        (processTerminalRemoval g false pre d w).val
        (processTerminalRemoval g false pre d w).world).log = []) ∧
    (∀ sid out,
      Event.call [DbusPathSessions, DbusMethodIsSessionClosable, sid] (Reply.ok out) ∈
        (isTerminalClosable g tID (processTerminalRemoval g false pre d w).world).log →
      strconvParseBool (stringsTrim out '\n') ≠ some true →
      removeCalls (processTerminalRemovalStep g false tID
        (processTerminalRemoval g false pre d w).val
        (processTerminalRemoval g false pre d w).world).log = []) ∧
    ((isTerminalClosable g tID (processTerminalRemoval g false pre d w).world).val.1 = false →
      removeCalls (processTerminalRemovalStep g false tID
        (processTerminalRemoval g false pre d w).val
        (processTerminalRemoval g false pre d w).world).log = []) ∧
    (processTerminalRemoval g false (pre ++ tID :: post) d w).log =
      (processTerminalRemoval g false pre d w).log ++
        ((processTerminalRemovalStep g false tID
            (processTerminalRemoval g false pre d w).val
            (processTerminalRemoval g false pre d w).world).log ++
          (processTerminalRemoval g false post
            (processTerminalRemovalStep g false tID
              (processTerminalRemoval g false pre d w).val
              (processTerminalRemoval g false pre d w).world).val
            (processTerminalRemovalStep g false tID
              (processTerminalRemoval g false pre d w).val
              (processTerminalRemoval g false pre d w).world).world).log) ∧
    removeCalls (clearSessions g false ids last w₀).log =
      removeCalls (removalPasses g false
        (stripActive g (activeSessionFor g last w₀).val ids
          (activeSessionFor g last w₀).world).val
        (stripActive g (activeSessionFor g last w₀).val ids
          (activeSessionFor g last w₀).world).world).log := by
  have hskip : (isTerminalClosable g tID (processTerminalRemoval g false pre d w).world).val.1
      = false →
      removeCalls (processTerminalRemovalStep g false tID
        (processTerminalRemoval g false pre d w).val
        (processTerminalRemoval g false pre d w).world).log = [] := by
    intro h
    rw [step_removeCalls]
    simp [h]
  refine ⟨isTerminalClosable_verdict g tID _, ?_, ?_, hskip, ?_, ?_⟩
  · intro sid err hmem
    exact hskip ((isTerminalClosable_verdict g tID _).mpr ⟨sid, _, hmem, fun h => h⟩)
  · intro sid out hmem hout
    exact hskip ((isTerminalClosable_verdict g tID _).mpr ⟨sid, _, hmem, hout⟩)
  · rw [processTerminalRemoval_append]
    simp [processTerminalRemoval]
  · rw [clearSessions_log]
    have ha : removeCalls (activeSessionFor g last w₀).log = [] :=
      (activeSessionFor_ordinary g (L := queryMethods) (by decide)
        last w₀).removeCalls_eq_nil removal_not_query
    have hs : ∀ a w', removeCalls (stripActive g a ids w').log = [] := fun a w' =>
      (stripActive_ordinary g (L := queryMethods) (by decide)
        a ids w').removeCalls_eq_nil removal_not_query
    simp only [removeCalls_append, removeCalls_cons_print, ha, hs, List.nil_append,
      Bool.false_eq_true, if_false, removeCalls_nil]
    split <;> simp

/-- C3 at two concrete services: where the closability query of session `s` fails, and
where it is answered "maybe", which is no boolean, the unforced iteration for terminal `1`
issues no `removeTerminal` call. -/
theorem unforced_clearing_skips_non_closable_witness :
    (Event.call [DbusPathSessions, DbusMethodIsSessionClosable, "s"]
          (Reply.fail "exit status 1") ∈
        (isTerminalClosable failingClosableGateway "1"
          (processTerminalRemoval failingClosableGateway false ["0"] false ()).world).log ∧
      removeCalls (processTerminalRemovalStep failingClosableGateway false "1"
        (processTerminalRemoval failingClosableGateway false ["0"] false ()).val
        (processTerminalRemoval failingClosableGateway false ["0"] false ()).world).log = []) ∧
    (Event.call [DbusPathSessions, DbusMethodIsSessionClosable, "s"] (Reply.ok "maybe\n") ∈
        (isTerminalClosable undecidedGateway "1"
          (processTerminalRemoval undecidedGateway false ["0"] false ()).world).log ∧
      strconvParseBool (stringsTrim "maybe\n" '\n') ≠ some true ∧
      removeCalls (processTerminalRemovalStep undecidedGateway false "1"
        (processTerminalRemoval undecidedGateway false ["0"] false ()).val
        (processTerminalRemoval undecidedGateway false ["0"] false ()).world).log = []) :=
  ⟨⟨by decide,
      (unforced_clearing_skips_non_closable failingClosableGateway ["0"] ["2"] "1" false ()
        ["0", "1", "2"] none ()).2.1 "s" "exit status 1" (by decide)⟩,
    ⟨by decide, by decide,
      (unforced_clearing_skips_non_closable undecidedGateway ["0"] ["2"] "1" false ()
        ["0", "1", "2"] none ()).2.2.1 "s" "maybe\n" (by decide) (by decide)⟩⟩

/-- C4, refuted as stated: the service answers the first owning-session query for terminal
`1` with session `s`, reports `s` not closable, and fails the second owning-session query.
The forced iteration then unlocks the session with the empty id and removes terminal `1`:
no `setSessionClosable s true` call is issued.  The same happens inside `clearSessions`,
where the stripping loop has asked for the owning session once more before. -/
theorem forced_clearing_misses_locked_session :
    Event.call [DbusPathSessions, DbusMethodIsSessionClosable, "s"] (Reply.ok "false\n") ∈
        (processTerminalRemoval (flakyOwnerGateway 1) true ["1"] false 0).log ∧
      calls (processTerminalRemoval (flakyOwnerGateway 1) true ["1"] false 0).log =
        [[DbusPathSessions, DbusMethodSessionIDForTerminalID, "1"],
          [DbusPathTabs, DbusMethodTabTitle, "s"],
          [DbusPathSessions, DbusMethodIsSessionClosable, "s"],
          [DbusPathSessions, DbusMethodSessionIDForTerminalID, "1"],
          [DbusPathSessions, DbusMethodSetSessionClosable, "", "true"],
          [DbusPathTabs, DbusMethodTabTitle, ""],
          [DbusPathSessions, DbusMethodTerminalRemoval, "1"]] ∧
      [DbusPathSessions, DbusMethodSetSessionClosable, "s", "true"] ∉
        calls (processTerminalRemoval (flakyOwnerGateway 1) true ["1"] false 0).log ∧
      calls (clearSessions (flakyOwnerGateway 2) true ["1"] (some "z") 0).log =
        [[DbusPathSessions, DbusMethodSessionIDForTerminalID, "1"],
          [DbusPathSessions, DbusMethodSessionIDForTerminalID, "1"],
          [DbusPathTabs, DbusMethodTabTitle, "s"],
          [DbusPathSessions, DbusMethodIsSessionClosable, "s"],
          [DbusPathSessions, DbusMethodSessionIDForTerminalID, "1"],
          [DbusPathSessions, DbusMethodSetSessionClosable, "", "true"],
          [DbusPathTabs, DbusMethodTabTitle, ""],
          [DbusPathSessions, DbusMethodTerminalRemoval, "1"]] := by
  decide

/-- C4, amended: in a pass with `force = true`, wherever the terminal stands in the list
and whatever its closability, the calls of its iteration are, in this order: the calls of
the closability check, the second owning-session query, one `setSessionClosable id true`
call for each comma-separated session id in the reply to that second query (at least
one), the title query and the `removeTerminal` call for the terminal, the only one of the
iteration.  The closability check asks only about session
ids in the reply to its own owning-session query; so when both owning-session queries are
answered with the same text, every session the check asked about has its
`setSessionClosable` call before the `removeTerminal` call. -/
theorem forced_clearing_unlocks_before_removal (pre post : List String) (tID : String)
    (d : Bool) (w : σ) :
    calls (processTerminalRemovalStep g true tID
        (processTerminalRemoval g true pre d w).val
        (processTerminalRemoval g true pre d w).world).log =
      calls (isTerminalClosable g tID (processTerminalRemoval g true pre d w).world).log ++
        [DbusPathSessions, DbusMethodSessionIDForTerminalID, tID] ::
          ((stringsSplit
              (g (isTerminalClosable g tID (processTerminalRemoval g true pre d w).world).world
                [DbusPathSessions, DbusMethodSessionIDForTerminalID, tID]).1.text ',').map
              (fun id => [DbusPathSessions, DbusMethodSetSessionClosable, id, "true"]) ++
            [[DbusPathTabs, DbusMethodTabTitle,
                (g (isTerminalClosable g tID
                    (processTerminalRemoval g true pre d w).world).world
                  [DbusPathSessions, DbusMethodSessionIDForTerminalID, tID]).1.text],
              [DbusPathSessions, DbusMethodTerminalRemoval, tID]]) ∧
    stringsSplit
        (g (isTerminalClosable g tID (processTerminalRemoval g true pre d w).world).world
          [DbusPathSessions, DbusMethodSessionIDForTerminalID, tID]).1.text ',' ≠ [] ∧
    removeCalls (processTerminalRemovalStep g true tID
        (processTerminalRemoval g true pre d w).val
        (processTerminalRemoval g true pre d w).world).log =
      [[DbusPathSessions, DbusMethodTerminalRemoval, tID]] ∧
    (∀ sid r,
      Event.call [DbusPathSessions, DbusMethodIsSessionClosable, sid] r ∈
        (isTerminalClosable g tID (processTerminalRemoval g true pre d w).world).log →
      sid ∈ stringsSplit
        (g (processTerminalRemoval g true pre d w).world
          [DbusPathSessions, DbusMethodSessionIDForTerminalID, tID]).1.text ',') ∧
    ((g (processTerminalRemoval g true pre d w).world
          [DbusPathSessions, DbusMethodSessionIDForTerminalID, tID]).1.text =
        (g (isTerminalClosable g tID (processTerminalRemoval g true pre d w).world).world
          [DbusPathSessions, DbusMethodSessionIDForTerminalID, tID]).1.text →
      ∀ sid r,
        Event.call [DbusPathSessions, DbusMethodIsSessionClosable, sid] r ∈
          (isTerminalClosable g tID (processTerminalRemoval g true pre d w).world).log →
        ∃ before between,
          calls (processTerminalRemovalStep g true tID
              (processTerminalRemoval g true pre d w).val
              (processTerminalRemoval g true pre d w).world).log =
            before ++ [DbusPathSessions, DbusMethodSetSessionClosable, sid, "true"] ::
              (between ++ [[DbusPathSessions, DbusMethodTerminalRemoval, tID]])) ∧
    (processTerminalRemoval g true (pre ++ tID :: post) d w).log =
      (processTerminalRemoval g true pre d w).log ++
        ((processTerminalRemovalStep g true tID
            (processTerminalRemoval g true pre d w).val
            (processTerminalRemoval g true pre d w).world).log ++
          (processTerminalRemoval g true post
            (processTerminalRemovalStep g true tID
              (processTerminalRemoval g true pre d w).val
              (processTerminalRemoval g true pre d w).world).val
            (processTerminalRemovalStep g true tID
              (processTerminalRemoval g true pre d w).val
              (processTerminalRemoval g true pre d w).world).world).log) := by
  refine ⟨step_forced_reply g tID _ _, stringsSplit_ne_nil _ _, ?_,
    fun sid r h => isTerminalClosable_queried g tID _ sid r h, ?_, ?_⟩
  · rw [step_removeCalls]
    simp
  · intro hsame sid r hmem
    have hin := isTerminalClosable_queried g tID _ sid r hmem
    rw [hsame] at hin
    obtain ⟨a, b, hab⟩ := List.append_of_mem hin
    refine ⟨calls (isTerminalClosable g tID (processTerminalRemoval g true pre d w).world).log
        ++ [DbusPathSessions, DbusMethodSessionIDForTerminalID, tID] ::
          a.map (fun id => [DbusPathSessions, DbusMethodSetSessionClosable, id, "true"]),
      b.map (fun id => [DbusPathSessions, DbusMethodSetSessionClosable, id, "true"]) ++
        [[DbusPathTabs, DbusMethodTabTitle,
          (g (isTerminalClosable g tID (processTerminalRemoval g true pre d w).world).world
            [DbusPathSessions, DbusMethodSessionIDForTerminalID, tID]).1.text]], ?_⟩
    rw [step_forced_reply, hab]
    simp
  · rw [processTerminalRemoval_append]
    simp [processTerminalRemoval]

/-- C4 amended, at a concrete service: both owning-session queries for terminal `1` are
answered with session `s`, which is reported not closable, and the forced iteration issues
`setSessionClosable s true` before `removeTerminal 1`. -/
theorem forced_clearing_unlocks_before_removal_witness :
    (lockedGateway (processTerminalRemoval lockedGateway true ["0"] false ()).world
          [DbusPathSessions, DbusMethodSessionIDForTerminalID, "1"]).1.text =
        (lockedGateway (isTerminalClosable lockedGateway "1"
            (processTerminalRemoval lockedGateway true ["0"] false ()).world).world
          [DbusPathSessions, DbusMethodSessionIDForTerminalID, "1"]).1.text ∧
      Event.call [DbusPathSessions, DbusMethodIsSessionClosable, "s"] (Reply.ok "false\n") ∈
        (isTerminalClosable lockedGateway "1"
          (processTerminalRemoval lockedGateway true ["0"] false ()).world).log ∧
      ∃ before between,
        calls (processTerminalRemovalStep lockedGateway true "1"
            (processTerminalRemoval lockedGateway true ["0"] false ()).val
            (processTerminalRemoval lockedGateway true ["0"] false ()).world).log =
          before ++ [DbusPathSessions, DbusMethodSetSessionClosable, "s", "true"] ::
            (between ++ [[DbusPathSessions, DbusMethodTerminalRemoval, "1"]]) :=
  ⟨by decide, by decide,
    (forced_clearing_unlocks_before_removal lockedGateway ["0"] ["2"] "1" false ()).2.2.2.2.1
      (by decide) "s" (Reply.ok "false\n") (by decide)⟩

/-- C5: every `removeTerminal` call issued during `LoadSession` is for a terminal id of
the list snapshotted before the first session was created, so no terminal absent from the
snapshot is closed; and when the profile has its clear flag set and the replay succeeds,
the run ends with `clearSessions` on that snapshot with the active session id snapshotted
at the same point as the protected id, nothing before it being a `removeTerminal` call. -/
theorem LoadSession_clears_only_snapshot (toLower : String → String)
    (configuration : YakCtlConfiguration) (profileID : Int) (w : σ) :
    (∀ t ∈ removalTargets (LoadSession g toLower configuration profileID w).log,
      ∃ ids, (getAllTerminalIDs g (getCurrentSessionId g w).world).val = Except.ok ids ∧
        t ∈ ids) ∧
    (∀ profile, GetProfile configuration profileID = Outcome.returned (Except.ok profile) →
      profile.ClearAll = true →
      (LoadSession g toLower configuration profileID w).val = Outcome.returned none →
      ∃ ids pre w', (getAllTerminalIDs g (getCurrentSessionId g w).world).val = Except.ok ids ∧
        removeCalls pre = [] ∧
        (LoadSession g toLower configuration profileID w).log =
          pre ++ (clearSessions g profile.ForceClear ids (some (getCurrentSessionId g w).val)
            w').log) := by
  constructor
  · intro t ht
    simp only [removalTargets, List.mem_map] at ht
    obtain ⟨args, hargs, rfl⟩ := ht
    cases hp : GetProfile configuration profileID with
    | panicked msg => simp [LoadSession, hp] at hargs
    | returned r =>
      cases r with
      | error err => simp [LoadSession, hp] at hargs
      | ok profile =>
        simp only [LoadSession, hp, Cmd.bind_apply, Cmd.pure_apply, List.append_nil] at hargs
        obtain ⟨ids, hids, t, ht, rfl⟩ := loadProfile_removeCalls g toLower profile w args hargs
        exact ⟨ids, hids, by simpa using ht⟩
  · intro profile hp hclear hval
    simp only [LoadSession, hp, Cmd.bind_apply, Cmd.pure_apply, List.append_nil,
      Outcome.returned.injEq] at hval ⊢
    cases henum : (getAllTerminalIDs g (getCurrentSessionId g w).world).val with
    | error err =>
      rw [(loadProfile_enum_error g toLower profile w err henum).2] at hval
      cases hval
    | ok ids =>
      cases htabs : (loadTabs g toLower profile.Tabs
          (getAllTerminalIDs g (getCurrentSessionId g w).world).world).val with
      | some err =>
        rw [(loadProfile_tab_error g toLower profile w ids err henum htabs).2] at hval
        cases hval
      | none =>
        obtain ⟨win, w', hwin, hlog, _⟩ := loadProfile_ok g toLower profile w ids henum htabs
        refine ⟨ids, (getCurrentSessionId g w).log ++
          ((getAllTerminalIDs g (getCurrentSessionId g w).world).log ++
            ((loadTabs g toLower profile.Tabs
              (getAllTerminalIDs g (getCurrentSessionId g w).world).world).log ++ win)),
          w', rfl, ?_, ?_⟩
        · simp only [removeCalls_eq_callsOf, callsOf_append]
          rw [(getCurrentSessionId_ordinary g (L := replayMethods) (by decide)
              w).callsOf_eq_nil removal_not_replay,
            (getAllTerminalIDs_ordinary g (L := replayMethods) (by decide)
              _).callsOf_eq_nil removal_not_replay,
            (loadTabs_ordinary g toLower _ _).callsOf_eq_nil (by decide),
            hwin.callsOf_eq_nil (by decide)]
          rfl
        · rw [hlog, hclear]
          simp

/-- C5 at a concrete service and profile: the profile exists, asks for clearing and is
replayed without error, and the run ends with the clearing of the snapshot. -/
theorem LoadSession_clears_only_snapshot_witness :
    GetProfile demoConfiguration 1 = Outcome.returned (Except.ok demoProfile) ∧
      demoProfile.ClearAll = true ∧
      (LoadSession replayGateway asciiToLower demoConfiguration 1 ()).val = Outcome.returned none ∧
      ∃ ids pre w',
        (getAllTerminalIDs replayGateway (getCurrentSessionId replayGateway ()).world).val
          = Except.ok ids ∧
        removeCalls pre = [] ∧
        (LoadSession replayGateway asciiToLower demoConfiguration 1 ()).log =
          pre ++ (clearSessions replayGateway demoProfile.ForceClear ids
            (some (getCurrentSessionId replayGateway ()).val) w').log :=
  ⟨rfl, rfl, by decide,
    (LoadSession_clears_only_snapshot replayGateway asciiToLower demoConfiguration 1 ()).2 demoProfile
      rfl rfl (by decide)⟩

/-- C6, evaluated: for the configuration decoded from a file without a `profiles` key
(nil profile list) and profile id 1, `GetProfile` does not return the not-found error: it
dereferences the nil pointer and panics, and so does `LoadSession`. -/
theorem GetProfile_nil_profiles_panics :
    GetProfile { Profiles := none } 1 =
        Outcome.panicked "invalid memory address or nil pointer dereference" ∧
      (LoadSession replayGateway asciiToLower { Profiles := none } 1 ()).val =
        Outcome.panicked "invalid memory address or nil pointer dereference" :=
  ⟨rfl, rfl⟩

/-- C7: when the profile exists, the initial terminal enumeration succeeds and every
session-creation call returns a non-empty id, the session-creation calls of `LoadSession`
are one per tab, in tab order, each of the method the lower-cased split mode maps to. -/
theorem LoadSession_one_creation_per_tab (toLower : String → String)
    (configuration : YakCtlConfiguration) (profileID : Int) (profile : ProfileDescription)
    (ids : List String) (w : σ)
    (hp : GetProfile configuration profileID = Outcome.returned (Except.ok profile))
    (henum : (getAllTerminalIDs g (getCurrentSessionId g w).world).val = Except.ok ids)
    (hgood : ∀ args r,
      Event.call args r ∈ (LoadSession g toLower configuration profileID w).log →
      IsCreation args → ∃ out, r = Reply.ok out ∧ stringsTrim out '\n' ≠ "") :
    callsOf creationMethods (LoadSession g toLower configuration profileID w).log =
      profile.Tabs.map
        (fun tab => [DbusPathSessions, splitModeMethod (toLower tab.SplitMode)]) := by
  simp only [LoadSession, hp, Cmd.bind_apply, Cmd.pure_apply, List.append_nil] at hgood ⊢
  have hc := (getCurrentSessionId_ordinary g (L := [DbusMethodActiveSessionId]) (by decide)
    w).callsOf_eq_nil (K := creationMethods) (by decide)
  have he := (getAllTerminalIDs_ordinary g (L := [DbusMethodTerminalIDList]) (by decide)
    (getCurrentSessionId g w).world).callsOf_eq_nil (K := creationMethods) (by decide)
  have hsub : ∀ e, e ∈ (loadTabs g toLower profile.Tabs
      (getAllTerminalIDs g (getCurrentSessionId g w).world).world).log →
      e ∈ (loadProfile g toLower profile w).log := by
    intro e hmem
    cases htabs : (loadTabs g toLower profile.Tabs
        (getAllTerminalIDs g (getCurrentSessionId g w).world).world).val with
    | some err =>
      rw [(loadProfile_tab_error g toLower profile w ids err henum htabs).1]
      simp [hmem]
    | none =>
      obtain ⟨win, w', _, hlog, _⟩ := loadProfile_ok g toLower profile w ids henum htabs
      rw [hlog]
      simp [hmem]
  obtain ⟨hcalls, hnone⟩ := loadTabs_creation g toLower profile.Tabs _
    (fun args r hmem hcr => hgood args r (hsub _ hmem) hcr)
  obtain ⟨win, w', hwin, hlog, _⟩ := loadProfile_ok g toLower profile w ids henum hnone
  rw [hlog]
  simp only [callsOf_append, hc, he, hcalls, hwin.callsOf_eq_nil (K := creationMethods)
    (by decide), List.nil_append]
  split
  · rw [clearSessions_callsOf g (by decide)]
    simp
  · simp

/-- C7 at a concrete service and profile: the tabs with split modes `QUAD`, `Vertical`
and none give one `addSessionQuad`, one `addSessionTwoVertical` and one `addSession` call,
in this order. -/
theorem LoadSession_one_creation_per_tab_witness :
    callsOf creationMethods (LoadSession replayGateway asciiToLower demoConfiguration 1 ()).log =
      [[DbusPathSessions, DbusMethodAddSessionQu], [DbusPathSessions, DbusMethodAddSessionTb],
        [DbusPathSessions, DbusMethodAddSession]] :=
  LoadSession_one_creation_per_tab replayGateway asciiToLower demoConfiguration 1 demoProfile
    ["1", "2", "3"] () rfl rfl
    (creationAnswered_all _ (by decide))

/-- C8, evaluated: the new session `7` reports no terminal, the reply to its terminal id
query being empty; `LoadSession` reads the reply as the one terminal id `""` and runs the
shared command and the command of slot 1 against it, although the session has fewer than
one terminal; only slot 2 is skipped.  The same happens when the terminal id query fails. -/
theorem LoadSession_runs_slot_command_without_terminal :
    Event.call [DbusPathSessions, DbusMethodTerminalIDListForSessionID, "7"] (Reply.ok "") ∈
        (LoadSession (terminalReplyGateway (Reply.ok "")) asciiToLower slotConfiguration 1
          ()).log ∧
      (getTerminalIDsForSessionID (terminalReplyGateway (Reply.ok "")) "7" ()).val = [""] ∧
      callsOf [DbusMethodRunCommandInTerminal]
          (LoadSession (terminalReplyGateway (Reply.ok "")) asciiToLower slotConfiguration 1
            ()).log =
        [[DbusPathSessions, DbusMethodRunCommandInTerminal, "", "cd src"],
          [DbusPathSessions, DbusMethodRunCommandInTerminal, "", "make"]] ∧
      callsOf [DbusMethodRunCommandInTerminal]
          (LoadSession (terminalReplyGateway (Reply.fail "exit status 1")) asciiToLower
            slotConfiguration 1 ()).log =
        [[DbusPathSessions, DbusMethodRunCommandInTerminal, "", "cd src"],
          [DbusPathSessions, DbusMethodRunCommandInTerminal, "", "make"]] := by
  decide

/-- C9: a clearing pass prints "All sessions cleared!" exactly when one of its
`removeTerminal` calls returned without error. -/
theorem success_message_iff_closed (force : Bool) (ids : List String) (last : Option String)
    (w : σ) :
    Event.print Msg.allSessionsCleared ∈ (clearSessions g force ids last w).log ↔
      ∃ t out, Event.call [DbusPathSessions, DbusMethodTerminalRemoval, t] (Reply.ok out) ∈
        (clearSessions g force ids last w).log := by
  have ha := activeSessionFor_ordinary g (L := queryMethods) (by decide) last w
  have hs := stripActive_ordinary g (L := queryMethods) (by decide)
    (activeSessionFor g last w).val ids (activeSessionFor g last w).world
  have hp := removalPasses_ordinary g force
    (stripActive g (activeSessionFor g last w).val ids (activeSessionFor g last w).world).val
    (stripActive g (activeSessionFor g last w).val ids (activeSessionFor g last w).world).world
  have hv := removalPasses_val g force
    (stripActive g (activeSessionFor g last w).val ids (activeSessionFor g last w).world).val
    (stripActive g (activeSessionFor g last w).val ids (activeSessionFor g last w).world).world
  have hfound : foundMessage ids.length ≠ Msg.allSessionsCleared := by
    unfold foundMessage
    split
    · simp
    · split <;> simp
  change _ ↔ closedSomething _
  rw [clearSessions_log]
  simp only [closedSomething_append, closedSomething_cons_print, List.mem_append,
    List.mem_cons, Event.print.injEq]
  have e1 := ha.no_success
  have e2 := hs.no_success
  have e3 := hp.no_success
  have c1 := ha.not_closedSomething removal_not_query
  have c2 := hs.not_closedSomething removal_not_query
  have c3 : ∀ m : Msg, ¬ closedSomething [Event.print m] := by
    intro m
    simp
  cases force <;>
    cases hval : (removalPasses g _
      (stripActive g (activeSessionFor g last w).val ids (activeSessionFor g last w).world).val
      (stripActive g (activeSessionFor g last w).val ids
        (activeSessionFor g last w).world).world).val <;>
    simp_all [Ne.symm hfound]

/-- C10, evaluated: when the service answers the terminal id list with empty output,
`ClearSession false` reports one open terminal, closes the terminal with the empty id and
prints the success message; "Found NO open terminal" is not printed. -/
theorem ClearSession_empty_reply :
    messages (ClearSession noTerminalGateway false ()).log =
      [Msg.foundOneOpenTerminal, Msg.closingTerminal "" "" "", Msg.allSessionsCleared] := by
  decide

/-- C11, evaluated: the service reports no open terminal, the reply to the enumeration
being empty; `ExecuteCommand` with an empty explicit list reads the reply as the one
terminal id `""` and runs the command in it, where no terminal was enumerated. -/
theorem ExecuteCommand_runs_without_terminal :
    (ExecuteCommand noTerminalGateway "ls" [] ()).log =
      [Event.call [DbusPathSessions, DbusMethodTerminalIDList] (Reply.ok ""),
        Event.print (Msg.executeCommand "ls" ""),
        Event.call [DbusPathSessions, DbusMethodRunCommandInTerminal, "", "ls"]
          (Reply.ok "")] := by
  decide

/-- C12, refuted as stated: with two sessions where the title query and the terminal id
query of the first one fail, `ShowStatus` still prints the line of the first session, a
terminal line for it, and the whole block of the second session. -/
theorem ShowStatus_lists_after_failed_queries :
    (ShowStatus brokenSessionGateway ()).log =
      [Event.call [DbusPathSessions, DbusMethodSessionIDList] (Reply.ok "1,2\n"),
        Event.call [DbusPathTabs, DbusMethodTabTitle, "1"] (Reply.fail "exit status 1"),
        Event.print (Msg.execError "exit status 1"),
        Event.print (Msg.sessionLine "1" ""),
        Event.call [DbusPathSessions, DbusMethodTerminalIDListForSessionID, "1"]
          (Reply.fail "exit status 1"),
        Event.print (Msg.execError "exit status 1"),
        Event.print (Msg.terminalLine ""),
        Event.call [DbusPathTabs, DbusMethodTabTitle, "2"] (Reply.ok "logs\n"),
        Event.print (Msg.sessionLine "2" "logs"),
        Event.call [DbusPathSessions, DbusMethodTerminalIDListForSessionID, "2"]
          (Reply.ok "20\n"),
        Event.print (Msg.terminalLine "20")] := by
  decide

/-- C12, amended: the session and terminal lines `ShowStatus` prints are determined by the
replies of the service.  When the enumeration of the session ids fails, there is none.
When it succeeds there is, for every comma-separated id of its reply, in order, the
session line with the text of the title reply (empty when that query failed) followed by
one terminal line per comma-separated id of the reply to the terminal id query of the
session: a failed title or terminal id query aborts nothing. -/
theorem ShowStatus_aborts_on_enumeration_failure_only (w : σ) :
    listingLines (ShowStatus g w).log =
      (match (g w [DbusPathSessions, DbusMethodSessionIDList]).1 with
        | Reply.fail _ => []
        | Reply.ok out =>
          listingOf g (stringsSplit (stringsTrim out '\n') ',')
            (g w [DbusPathSessions, DbusMethodSessionIDList]).2) := by
  have hval := getAllSessionIDs_reply g w
  have hworld := getAllSessionIDs_world g w
  have hlines := getAllSessionIDs_listingLines g w
  cases hrep : (g w [DbusPathSessions, DbusMethodSessionIDList]).1 with
  | fail err =>
    rw [hrep] at hval
    simp only [ShowStatus, Cmd.bind_apply, hval, Cmd.emit_apply, listingLines_append, hlines,
      List.nil_append]
    simp [listingLines]
  | ok out =>
    rw [hrep] at hval
    simp only [ShowStatus, Cmd.bind_apply, hval, listingLines_append, hlines,
      List.nil_append, showSessions_listingLines, hworld]

/-- C13: when the owning-session query answers by a fixed assignment of terminals to
sessions and at most one candidate belongs to the protected session, the in-place removal
of `clearSessions` splits the candidates correctly: the immediate list is the candidates of
the other sessions in their original order, the postponed list is the candidate of the
protected session (empty when there is none, the immediate list then being all
candidates), the two passes process the immediate list followed by the postponed list,
and that is every candidate exactly once. -/
theorem stripActive_single_protected (owner : String → String) (active : String)
    (ids : List String) (w : σ)
    (hown : ∀ w t, (getSessionIDForTerminalID g t w).val = owner t)
    (hone : (ids.filter (fun t => owner t = active)).length ≤ 1) :
    (stripActive g active ids w).val.cleanedUpTerminalIDList =
        ids.filter (fun t => owner t ≠ active) ∧
      (stripActive g active ids w).val.postponedTerminalIDs =
        ids.filter (fun t => owner t = active) ∧
      (∀ force w', removalPasses g force (stripActive g active ids w).val w' =
        processTerminalRemoval g force
          (ids.filter (fun t => owner t ≠ active) ++ ids.filter (fun t => owner t = active))
          false w') ∧
      (ids.filter (fun t => owner t ≠ active) ++
        ids.filter (fun t => owner t = active)).Perm ids := by
  obtain ⟨h1, h2, h3⟩ := stripLoop_single g owner active hown ids hone ids.length 0 w
    (by simp) (by simp)
  refine ⟨h1, h2, ?_, ?_⟩
  · intro force w'
    have hflag : (stripActive g active ids w).val.isCurrentTerminalPostponed =
        !(stripActive g active ids w).val.postponedTerminalIDs.isEmpty := by
      rw [show (stripActive g active ids w).val.postponedTerminalIDs =
        ids.filter (fun t => owner t = active) from h2]
      exact h3
    rw [removalPasses_single g force _ w' hflag]
    rw [show (stripActive g active ids w).val.cleanedUpTerminalIDList =
        ids.filter (fun t => owner t ≠ active) from h1,
      show (stripActive g active ids w).val.postponedTerminalIDs =
        ids.filter (fun t => owner t = active) from h2]
  · have hfun : (fun t => decide (owner t ≠ active)) =
        (fun t => !decide (owner t = active)) := by
      funext t
      simp
    rw [hfun]
    exact List.perm_append_comm.trans (List.filter_append_perm _ ids)

/-- C13 at a concrete service: of the candidates `1`, `2`, `3` only `2` belongs to the
protected session `a`; the immediate list is `[1, 3]` and the postponed list `[2]`. -/
theorem stripActive_single_protected_witness :
    (["1", "2", "3"].filter (fun t => (if t = "2" then "a" else "b") = "a")).length ≤ 1 ∧
      (stripActive singleActiveGateway "a" ["1", "2", "3"] ()).val.cleanedUpTerminalIDList
        = ["1", "3"] ∧
      (stripActive singleActiveGateway "a" ["1", "2", "3"] ()).val.postponedTerminalIDs
        = ["2"] :=
  ⟨by decide,
    (stripActive_single_protected singleActiveGateway (fun t => if t = "2" then "a" else "b")
      "a" ["1", "2", "3"] () singleActiveGateway_owner (by decide)).1.trans (by decide),
    (stripActive_single_protected singleActiveGateway (fun t => if t = "2" then "a" else "b")
      "a" ["1", "2", "3"] () singleActiveGateway_owner (by decide)).2.1.trans (by decide)⟩

end Claims

end Yakctl
